import Mathlib

set_option maxRecDepth 8000

/-!
Verification of `genboot.py` (U-Boot script generator for Xen dom0-less boot).

The Python source is shallowly embedded below.  Strings are Lean `String`s
(whose logical model is a list of characters), Python integers are `Int`/`Nat`,
and a raised exception that `main` would catch is modelled by `Option.none`.
Python's `float` arithmetic (used by `parse_address_or_size` for the
`KiB`/`MiB`/`GiB` suffixes and by the domain-memory computation
`int(parse_address_or_size(memory) / 1024)`) is modelled exactly as IEEE-754
binary64 round-to-nearest-even with unbounded exponent range plus an explicit
overflow check at `2^1024`:
 * rounding to the nearest 53-bit significand is implemented on exact natural
   ratios (`floatRound`);
 * multiplication by the suffix multipliers (exact powers of two) only shifts
   the exponent, as in IEEE-754, with the same overflow-to-infinity condition;
 * an overflow (Python produces `inf`, and the subsequent `int(...)` raises
   `OverflowError`) is modelled as `none`, which is where the raised error is
   observed in this program;
 * values below `2^-1022` are kept on the unbounded-exponent grid instead of
   the subnormal grid; every consumer in this program truncates such values to
   the integer `0` either way, so the final results agree with CPython;
 * decimal literals whose magnitude is below `10^-330` round to `0.0` exactly
   (they are under half the smallest subnormal), which the model returns
   directly.
All recursive helpers use structural recursion on an explicit fuel so that
every definition evaluates inside the kernel (`decide`/`rfl`).
-/

/-! ### Digit characters and digit values -/

def digitChar : Nat → Char
  | 0 => '0' | 1 => '1' | 2 => '2' | 3 => '3' | 4 => '4'
  | 5 => '5' | 6 => '6' | 7 => '7' | 8 => '8' | 9 => '9'
  | 10 => 'a' | 11 => 'b' | 12 => 'c' | 13 => 'd' | 14 => 'e'
  | _ => 'f'

/-- Digit classification as in CPython's `int(s, base)`: `0-9`, `a-f`, `A-F`,
restricted to values below the base. -/
def digitVal (base : Nat) (c : Char) : Option Nat :=
  let v : Option Nat :=
    if '0' ≤ c ∧ c ≤ '9' then some (c.toNat - 48)
    else if 'a' ≤ c ∧ c ≤ 'f' then some (c.toNat - 87)
    else if 'A' ≤ c ∧ c ≤ 'F' then some (c.toNat - 55)
    else none
  match v with
  | some d => if d < base then some d else none
  | none => none

theorem digitVal_digitChar {d base : Nat} (h16 : d < 16) :
    digitVal base (digitChar d) = if d < base then some d else none := by
  interval_cases d <;> simp [digitChar, digitVal]

theorem digitChar_not_special {d : Nat} (h16 : d < 16) :
    digitChar d ≠ ' ' ∧ digitChar d ≠ '/' ∧ digitChar d ≠ '"' ∧ digitChar d ≠ '_' ∧
    digitChar d ≠ '.' ∧ digitChar d ≠ 'x' ∧ digitChar d ≠ 'X' := by
  interval_cases d <;> refine ⟨?_, ?_, ?_, ?_, ?_, ?_, ?_⟩ <;> decide

/-! ### Rendering naturals in base 10 / 16 (Python `str(n)`, `f"{n:x}"`) -/

def baseCharsGo (b : Nat) : Nat → Nat → List Char → List Char
  | 0, _, acc => acc
  | f + 1, n, acc =>
    if n < b then digitChar n :: acc
    else baseCharsGo b f (n / b) (digitChar (n % b) :: acc)

def baseChars (b n : Nat) : List Char := baseCharsGo b (n + 1) n []

theorem baseCharsGo_acc (b : Nat) (f : Nat) :
    ∀ n acc, baseCharsGo b f n acc = baseCharsGo b f n [] ++ acc := by
  induction f with
  | zero => intro n acc; simp [baseCharsGo]
  | succ f ih =>
    intro n acc
    by_cases h : n < b
    · simp [baseCharsGo, h]
    · simp only [baseCharsGo, if_neg h]
      rw [ih (n / b) (digitChar (n % b) :: acc), ih (n / b) [digitChar (n % b)]]
      simp

theorem baseCharsGo_fuel (b : Nat) (hb : 2 ≤ b) :
    ∀ n f f', n < f → n < f' → baseCharsGo b f n [] = baseCharsGo b f' n [] := by
  intro n
  induction n using Nat.strong_induction_on with
  | _ n ih =>
    intro f f' hf hf'
    match f, f' with
    | g + 1, g' + 1 =>
      by_cases h : n < b
      · simp [baseCharsGo, h]
      · simp only [baseCharsGo, if_neg h]
        rw [baseCharsGo_acc b g, baseCharsGo_acc b g']
        have hn : 0 < n := by omega
        have hdiv : n / b < n := Nat.div_lt_self hn (by omega)
        rw [ih (n / b) hdiv g g' (by omega) (by omega)]

theorem baseChars_lt (b n : Nat) (h : n < b) : baseChars b n = [digitChar n] := by
  simp [baseChars, baseCharsGo, h]

theorem baseChars_ge (b n : Nat) (hb : 2 ≤ b) (h : b ≤ n) :
    baseChars b n = baseChars b (n / b) ++ [digitChar (n % b)] := by
  have hnb : ¬ n < b := by omega
  have hn : 0 < n := by omega
  have hdiv : n / b < n := Nat.div_lt_self hn (by omega)
  simp only [baseChars, baseCharsGo, if_neg hnb]
  rw [baseCharsGo_acc b n, baseCharsGo_fuel b hb (n / b) n (n / b + 1) (by omega) (by omega)]
  by_cases h2 : n / b < b <;> simp [baseCharsGo, h2]

theorem baseChars_ne_nil (b n : Nat) (hb : 2 ≤ b) : baseChars b n ≠ [] := by
  induction n using Nat.strong_induction_on with
  | _ n ih =>
    by_cases h : n < b
    · rw [baseChars_lt b n h]; simp
    · rw [baseChars_ge b n hb (by omega)]; simp

theorem baseChars_digits (b n : Nat) (hb : 2 ≤ b) (hb16 : b ≤ 16) :
    ∀ c ∈ baseChars b n, ∃ d, d < 16 ∧ c = digitChar d := by
  induction n using Nat.strong_induction_on with
  | _ n ih =>
    by_cases h : n < b
    · rw [baseChars_lt b n h]
      intro c hc
      simp only [List.mem_singleton] at hc
      exact ⟨n, by omega, hc⟩
    · rw [baseChars_ge b n hb (by omega)]
      intro c hc
      rcases List.mem_append.mp hc with hc | hc
      · have hn : 0 < n := by omega
        exact ih (n / b) (Nat.div_lt_self hn (by omega)) c hc
      · simp only [List.mem_singleton] at hc
        have : n % b < b := Nat.mod_lt _ (by omega)
        exact ⟨n % b, by omega, hc⟩

/-! ### Parsing digit sequences (CPython numeral grammar, incl. `_` separators) -/

/-- Consume the remaining digits of a numeral.  A single `_` is allowed between
digits (and rejected when doubled, trailing, or followed by a non-digit), as in
CPython.  Returns the accumulated value and the number of digits consumed. -/
def digitsRun (b : Nat) : Nat → Nat → List Char → Option (Nat × Nat)
  | acc, cnt, [] => some (acc, cnt)
  | acc, cnt, c :: r =>
    if c = '_' then
      match r with
      | [] => none
      | c2 :: r2 =>
        match digitVal b c2 with
        | some d => digitsRun b (acc * b + d) (cnt + 1) r2
        | none => none
    else
      match digitVal b c with
      | some d => digitsRun b (acc * b + d) (cnt + 1) r
      | none => none

/-- A full numeral: at least one digit, no leading underscore. -/
def digitsValCnt (b : Nat) (cs : List Char) : Option (Nat × Nat) :=
  match cs with
  | [] => none
  | c :: r =>
    if c = '_' then none
    else
      match digitVal b c with
      | some d => digitsRun b d 1 r
      | none => none

def digitsVal (b : Nat) (cs : List Char) : Option Nat := (digitsValCnt b cs).map Prod.fst

theorem digitsRun_nil (b acc cnt : Nat) : digitsRun b acc cnt [] = some (acc, cnt) := rfl

theorem digitsRun_cons_digit {b d : Nat} {c : Char} (acc cnt : Nat) (r : List Char)
    (hne : c ≠ '_') (hd : digitVal b c = some d) :
    digitsRun b acc cnt (c :: r) = digitsRun b (acc * b + d) (cnt + 1) r := by
  conv_lhs => rw [digitsRun.eq_def]
  simp only [hne, if_false, hd]

theorem digitsValCnt_cons_digit {b d : Nat} {c : Char} (r : List Char)
    (hne : c ≠ '_') (hd : digitVal b c = some d) :
    digitsValCnt b (c :: r) = digitsRun b d 1 r := by
  conv_lhs => rw [digitsValCnt.eq_def]
  simp only [hne, if_false, hd]

theorem digitsRun_baseChars (b : Nat) (hb : 2 ≤ b) (hb16 : b ≤ 16) :
    ∀ n acc cnt ys, digitsRun b acc cnt (baseChars b n ++ ys) =
      digitsRun b (acc * b ^ (baseChars b n).length + n) (cnt + (baseChars b n).length) ys := by
  intro n
  induction n using Nat.strong_induction_on with
  | _ n ih =>
    intro acc cnt ys
    by_cases h : n < b
    · rw [baseChars_lt b n h, List.singleton_append,
        digitsRun_cons_digit acc cnt ys (digitChar_not_special (show n < 16 by omega)).2.2.2.1
          (by rw [digitVal_digitChar (show n < 16 by omega), if_pos h])]
      simp
    · have hn : 0 < n := by omega
      have hdiv : n / b < n := Nat.div_lt_self hn (by omega)
      have hmod16 : n % b < 16 := by have := Nat.mod_lt n (show 0 < b by omega); omega
      conv_lhs => rw [baseChars_ge b n hb (by omega), List.append_assoc, List.singleton_append]
      rw [ih (n / b) hdiv acc cnt (digitChar (n % b) :: ys),
        digitsRun_cons_digit _ _ ys (digitChar_not_special hmod16).2.2.2.1
          (by rw [digitVal_digitChar hmod16, if_pos (Nat.mod_lt n (show 0 < b by omega))]),
        baseChars_ge b n hb (by omega)]
      have hval : (acc * b ^ (baseChars b (n / b)).length + n / b) * b + n % b =
          acc * b ^ (baseChars b (n / b) ++ [digitChar (n % b)]).length + n := by
        simp only [List.length_append, List.length_singleton, pow_succ]
        have hdm : n / b * b + n % b = n := Nat.div_add_mod' n b
        ring_nf
        ring_nf at hdm ⊢
        nlinarith [hdm]
      rw [hval]
      simp only [List.length_append, List.length_singleton]
      ring_nf

theorem digitsRun_zeros (b : Nat) (hb : 2 ≤ b) :
    ∀ k cnt ys, digitsRun b 0 cnt (List.replicate k '0' ++ ys) = digitsRun b 0 (cnt + k) ys := by
  intro k
  induction k with
  | zero => intro cnt ys; simp
  | succ k ih =>
    intro cnt ys
    have h0 : digitVal b '0' = some 0 := by
      have := @digitVal_digitChar 0 b (by omega)
      simpa [digitChar, show 0 < b by omega] using this
    rw [List.replicate_succ, List.cons_append,
      digitsRun_cons_digit 0 cnt _ (by decide) h0]
    rw [show 0 * b + 0 = 0 by ring, ih (cnt + 1) ys]
    ring_nf

theorem digitsValCnt_baseChars_append (b : Nat) (hb : 2 ≤ b) (hb16 : b ≤ 16) :
    ∀ n ys, digitsValCnt b (baseChars b n ++ ys) = digitsRun b n (baseChars b n).length ys := by
  intro n
  induction n using Nat.strong_induction_on with
  | _ n ih =>
    intro ys
    by_cases h : n < b
    · rw [baseChars_lt b n h, List.singleton_append,
        digitsValCnt_cons_digit ys (digitChar_not_special (show n < 16 by omega)).2.2.2.1
          (by rw [digitVal_digitChar (show n < 16 by omega), if_pos h])]
      simp
    · have hn : 0 < n := by omega
      have hdiv : n / b < n := Nat.div_lt_self hn (by omega)
      have hmod16 : n % b < 16 := by have := Nat.mod_lt n (show 0 < b by omega); omega
      conv_lhs => rw [baseChars_ge b n hb (by omega), List.append_assoc, List.singleton_append]
      rw [ih (n / b) hdiv (digitChar (n % b) :: ys),
        digitsRun_cons_digit _ _ ys (digitChar_not_special hmod16).2.2.2.1
          (by rw [digitVal_digitChar hmod16, if_pos (Nat.mod_lt n (show 0 < b by omega))]),
        baseChars_ge b n hb (by omega)]
      rw [Nat.div_add_mod' n b]
      simp [List.length_append]

theorem digitsValCnt_pad (b : Nat) (hb : 2 ≤ b) (hb16 : b ≤ 16) (k n : Nat) :
    digitsValCnt b (List.replicate k '0' ++ baseChars b n) =
      some (n, k + (baseChars b n).length) := by
  cases k with
  | zero =>
    have := digitsValCnt_baseChars_append b hb hb16 n []
    simpa [digitsRun_nil] using this
  | succ k =>
    have h0 : digitVal b '0' = some 0 := by
      have := @digitVal_digitChar 0 b (by omega)
      simpa [digitChar, show 0 < b by omega] using this
    rw [List.replicate_succ, List.cons_append,
      digitsValCnt_cons_digit _ (by decide) h0]
    have hzr := digitsRun_zeros b hb k 1 (baseChars b n)
    rw [hzr]
    have hrb := digitsRun_baseChars b hb hb16 n 0 (1 + k) []
    rw [show baseChars b n ++ ([] : List Char) = baseChars b n by simp] at hrb
    rw [hrb, digitsRun_nil]
    ring_nf

theorem digitsVal_pad (b : Nat) (hb : 2 ≤ b) (hb16 : b ≤ 16) (k n : Nat) :
    digitsVal b (List.replicate k '0' ++ baseChars b n) = some n := by
  rw [digitsVal, digitsValCnt_pad b hb hb16 k n, Option.map_some']

theorem digitsVal_baseChars (b : Nat) (hb : 2 ≤ b) (hb16 : b ≤ 16) (n : Nat) :
    digitsVal b (baseChars b n) = some n := by
  have := digitsVal_pad b hb hb16 0 n
  simpa using this

/-! ### Whitespace stripping (`str.strip()`), prefix test, space tokenizer -/

/-- The ASCII whitespace recognised by `str.strip()` (the configurations at
hand contain no non-ASCII whitespace). -/
def isPyWs (c : Char) : Bool :=
  c == ' ' || c == '\t' || c == '\n' || c == '\r' || c == '\x0b' || c == '\x0c'

def pyStrip (cs : List Char) : List Char :=
  ((cs.dropWhile isPyWs).reverse.dropWhile isPyWs).reverse

theorem dropWhile_of_none {p : Char → Bool} {cs : List Char}
    (h : ∀ c ∈ cs, p c = false) : cs.dropWhile p = cs := by
  cases cs with
  | nil => rfl
  | cons c r => rw [List.dropWhile_cons_of_neg (by simp [h c (by simp)])]

theorem pyStrip_of_no_ws {cs : List Char} (h : ∀ c ∈ cs, isPyWs c = false) :
    pyStrip cs = cs := by
  rw [pyStrip, dropWhile_of_none h, dropWhile_of_none (by intro c hc; exact h c (by simpa using hc)),
    List.reverse_reverse]

/-- `startsList pat cs` decides whether `pat` is an initial segment of `cs`
(Python's `str.startswith`). -/
def startsList : List Char → List Char → Bool
  | [], _ => true
  | _ :: _, [] => false
  | p :: ps, c :: cs => p == c && startsList ps cs

theorem startsList_append (pat rest : List Char) : startsList pat (pat ++ rest) = true := by
  induction pat with
  | nil => rfl
  | cons p ps ih => simp [startsList, ih]

theorem startsList_iff (pat cs : List Char) :
    startsList pat cs = true ↔ ∃ rest, cs = pat ++ rest := by
  constructor
  · intro h
    induction pat generalizing cs with
    | nil => exact ⟨cs, rfl⟩
    | cons p ps ih =>
      cases cs with
      | nil => simp [startsList] at h
      | cons c r =>
        simp only [startsList, Bool.and_eq_true, beq_iff_eq] at h
        obtain ⟨rest, hr⟩ := ih r h.2
        exact ⟨rest, by rw [h.1, hr]; rfl⟩
  · rintro ⟨rest, rfl⟩
    exact startsList_append pat rest

/-- Split a character list at every space, as Python `" ".join`'s inverse; a
line `a b` yields `[a, b]`, adjacent spaces yield empty tokens. -/
def splitSp : List Char → List (List Char)
  | [] => [[]]
  | c :: rest =>
    if c = ' ' then [] :: splitSp rest
    else
      match splitSp rest with
      | [] => [[c]]
      | t :: ts => (c :: t) :: ts

theorem splitSp_ne_nil (cs : List Char) : splitSp cs ≠ [] := by
  induction cs with
  | nil => simp [splitSp]
  | cons c rest ih =>
    by_cases h : c = ' '
    · simp [splitSp, h]
    · simp only [splitSp, if_neg h]
      cases splitSp rest with
      | nil => simp
      | cons t ts => simp

theorem splitSp_cons_space (rest : List Char) : splitSp (' ' :: rest) = [] :: splitSp rest := by
  simp [splitSp]

theorem splitSp_append_space (xs ys : List Char) :
    splitSp (xs ++ ' ' :: ys) = splitSp xs ++ splitSp ys := by
  induction xs with
  | nil => simp [splitSp]
  | cons c rest ih =>
    by_cases h : c = ' '
    · subst h
      rw [List.cons_append, splitSp_cons_space, splitSp_cons_space, ih, List.cons_append]
    · rw [List.cons_append]
      simp only [splitSp, if_neg h, ih]
      cases hs : splitSp rest with
      | nil => exact absurd hs (splitSp_ne_nil rest)
      | cons t ts => simp

theorem splitSp_no_space {xs : List Char} (h : ∀ c ∈ xs, c ≠ ' ') : splitSp xs = [xs] := by
  induction xs with
  | nil => rfl
  | cons c rest ih =>
    simp only [splitSp, if_neg (h c (by simp))]
    rw [ih (fun c hc => h c (by simp [hc]))]

/-- Tokens of a line of text: split its characters at spaces. -/
def lineTokens (s : String) : List (List Char) := splitSp s.data

theorem splitSp_token_append {xs ys : List Char} (h : ∀ c ∈ xs, c ≠ ' ') :
    splitSp (xs ++ ' ' :: ys) = xs :: splitSp ys := by
  rw [splitSp_append_space, splitSp_no_space h, List.singleton_append]

/-! ### Rendering helpers used by the generator's f-strings -/

def natDecStr (n : Nat) : String := ⟨baseChars 10 n⟩

def natHexStr (n : Nat) : String := ⟨baseChars 16 n⟩

/-- Python `f"{v}"` for an `int`. -/
def intDecStr (v : Int) : String := if v < 0 then "-" ++ natDecStr v.natAbs else natDecStr v.toNat

/-- Python `f"{v:x}"` for an `int`. -/
def intHexStr (v : Int) : String := if v < 0 then "-" ++ natHexStr v.natAbs else natHexStr v.toNat

def padZeros (w : Nat) (cs : List Char) : List Char := List.replicate (w - cs.length) '0' ++ cs

/-- Python `f"0x{v:08x}"`: zero-padded to (total) width 8, lowercase; a
negative value carries its sign inside the width. -/
def hex8str (v : Int) : String :=
  "0x" ++ (if v < 0 then "-" ++ String.mk (padZeros 7 (baseChars 16 v.natAbs))
           else String.mk (padZeros 8 (baseChars 16 v.toNat)))

/-! ### IEEE-754 binary64 model (CPython `float`) -/

def log2go : Nat → Nat → Nat
  | 0, _ => 0
  | f + 1, n => if n ≤ 1 then 0 else log2go f (n / 2) + 1

/-- Floor of the base-2 logarithm (0 at 0 and 1). -/
def log2f (n : Nat) : Nat := log2go n n

/-- Decide `a / b ≥ 2 ^ t` on exact ratios of positive naturals. -/
def gePow2 (a b : Nat) (t : Int) : Bool :=
  if 0 ≤ t then b * 2 ^ t.toNat ≤ a else b ≤ a * 2 ^ (-t).toNat

/-- Floor of the base-2 logarithm of `a / b` for `a, b ≥ 1`. -/
def ratLog2 (a b : Nat) : Int :=
  let t : Int := (log2f a : Int) - (log2f b : Int)
  if gePow2 a b t then t else t - 1

/-- Round `a / b` half-to-even to an integer. -/
def rnHalfEven (a b : Nat) : Nat :=
  let q := a / b
  let r := a % b
  if 2 * r < b then q
  else if b < 2 * r then q + 1
  else if q % 2 = 0 then q else q + 1

/-- Round the exact ratio `a / b` (`a, b ≥ 1`) to 53 significant bits with an
unbounded exponent: the result is `m * 2 ^ e` with `2^52 ≤ m ≤ 2^53`. -/
def floatRound (a b : Nat) : Nat × Int :=
  let e := ratLog2 a b
  let s : Int := 52 - e
  let m := if 0 ≤ s then rnHalfEven (a * 2 ^ s.toNat) b else rnHalfEven a (b * 2 ^ (-s).toNat)
  (m, e - 52)

/-- A Python `float` value `(-1)^neg * m * 2^e` (finite, not NaN). -/
structure PyF where
  neg : Bool
  m : Nat
  e : Int
deriving DecidableEq

/-- Decide `m * 2 ^ e ≥ 2 ^ k` (for `m ≥ 1`, `m ≥ 2 ^ j` iff `log2f m ≥ j`;
the log form keeps kernel evaluation shallow). -/
def geVal (m : Nat) (e k : Int) : Bool :=
  if k ≤ e then 1 ≤ m else (k - e).toNat ≤ log2f m

/-- Multiplying a `float` by an exact power of two (the suffix multipliers
1024, 1024², 1024³) shifts the exponent; on overflow Python yields `inf` and
the subsequent `int(...)` raises, modelled as `none`. -/
def pyfMulPow2 (x : PyF) (t : Nat) : Option PyF :=
  if x.m = 0 then some x
  else if geVal x.m (x.e + t) 1024 then none
  else some ⟨x.neg, x.m, x.e + t⟩

/-- Python `int(x)` for a finite `float`: truncation toward zero. -/
def pyfTrunc (x : PyF) : Int :=
  let mag : Nat := if 0 ≤ x.e then x.m * 2 ^ x.e.toNat else x.m / 2 ^ (-x.e).toNat
  if x.neg then -(mag : Int) else (mag : Int)

/-- Python 3 `int(a / b)` for integers: true division producing a correctly
rounded binary64, then truncation.  `none` models the `OverflowError` raised
when the quotient exceeds the `float` range (or `ZeroDivisionError`). -/
def pyIntTrueDiv (a : Int) (b : Nat) : Option Int :=
  if b = 0 then none
  else if a = 0 then some 0
  else
    let p := floatRound a.natAbs b
    if geVal p.1 p.2 1024 then none
    else some (pyfTrunc ⟨a < 0, p.1, p.2⟩)

/-- Build the `float` for a decimal literal `(-1)^neg * a * 10^E`.
`none` models an overflow to `inf` (whose later `int(...)` raises).  Literals
below `10^-330` in magnitude are under half the smallest subnormal and round
to `0.0` exactly. -/
def mkPyFloat (neg : Bool) (a : Nat) (E : Int) : Option PyF :=
  if a = 0 then some ⟨neg, 0, 0⟩
  else
    let D : Int := (baseChars 10 a).length
    if 330 < D + E then none
    else if D + E < -330 then some ⟨neg, 0, 0⟩
    else
      let p := if 0 ≤ E then floatRound (a * 10 ^ E.toNat) 1 else floatRound a (10 ^ (-E).toNat)
      if geVal p.1 p.2 1024 then none else some ⟨neg, p.1, p.2⟩

/-! ### CPython numeral grammars (`int(s)`, `int(s, 16)`, `float(s)`) -/

/-- `int(s)` (base 10) on a stripped character list. -/
def pyIntDec (cs : List Char) : Option Int :=
  match cs with
  | '-' :: r => (digitsVal 10 r).map (fun n => -(n : Int))
  | '+' :: r => (digitsVal 10 r).map (fun n => (n : Int))
  | r => (digitsVal 10 r).map (fun n => (n : Int))

/-- Digits of a hexadecimal literal after the `0x` prefix; CPython allows one
underscore directly after the prefix. -/
def hexBody (cs : List Char) : Option Nat :=
  match cs with
  | [] => none
  | c :: r => if c = '_' then digitsVal 16 r else digitsVal 16 (c :: r)

/-- `int(s, 16)` restricted to the shapes reachable here: the caller already
checked that the stripped string starts with `0x`/`0X` (hence no sign). -/
def pyIntHex (cs : List Char) : Option Int :=
  match cs with
  | '0' :: x :: r => if x = 'x' ∨ x = 'X' then (hexBody r).map Int.ofNat else none
  | _ => none

/-- `float(s)` on a stripped character list, for the decimal-literal grammar
`[sign] digits [. digits] [(e|E) [sign] digits]` with CPython's underscore
rules.  The special spellings `inf`/`infinity`/`nan` are not produced: every
use of the result goes through `int(...)`, which raises on them just as it
does on the `none` (overflow) result; both outcomes coincide at
`parse_address_or_size`'s boundary. -/
def pyFloatOfChars (cs : List Char) : Option PyF :=
  let sb : Bool × List Char :=
    match cs with
    | '-' :: r => (true, r)
    | '+' :: r => (false, r)
    | r => (false, r)
  let mantExp := sb.2.span (fun c => !(c == 'e' || c == 'E'))
  let expVal : Option Int :=
    match mantExp.2 with
    | [] => some 0
    | _ :: er =>
      match er with
      | '-' :: r2 => (digitsVal 10 r2).map (fun n => -(n : Int))
      | '+' :: r2 => (digitsVal 10 r2).map (fun n => (n : Int))
      | r2 => (digitsVal 10 r2).map (fun n => (n : Int))
  match expVal with
  | none => none
  | some ev =>
    let ipDot := mantExp.1.span (fun c => !(c == '.'))
    let mant : Option (Nat × Nat) :=
      match ipDot.2 with
      | [] => (digitsValCnt 10 ipDot.1).map (fun p => (p.1, 0))
      | _ :: fp =>
        match ipDot.1, fp with
        | [], [] => none
        | [], _ :: _ => digitsValCnt 10 fp
        | _ :: _, [] => (digitsValCnt 10 ipDot.1).map (fun p => (p.1, 0))
        | _ :: _, _ :: _ =>
          match digitsValCnt 10 ipDot.1, digitsValCnt 10 fp with
          | some iv, some fv => some (iv.1 * 10 ^ fv.2 + fv.1, fv.2)
          | _, _ => none
    match mant with
    | none => none
    | some af => mkPyFloat sb.1 af.1 ((ev : Int) - (af.2 : Int))

/-! ### `parse_address_or_size`, `format_hex`, `get_file_size` -/

/-- A YAML scalar consumed as an address or size: a native integer or a
string. -/
inductive AddrExpr where
  | int (n : Int)
  | str (s : String)
deriving DecidableEq

/-- The `multipliers` dict of `parse_address_or_size`, in insertion order. -/
def sizeSuffixes : List (String × Nat) := [("KiB", 1024), ("MiB", 1024 * 1024), ("GiB", 1024 * 1024 * 1024)]

def endsList (suf cs : List Char) : Bool := startsList suf.reverse cs.reverse

def findSuffix : List (String × Nat) → List Char → Option (String × Nat)
  | [], _ => none
  | (s, m) :: rest, cs => if endsList s.data cs then some (s, m) else findSuffix rest cs

/-- `parse_address_or_size` from `genboot.py`.  `none` models the exception
(`ValueError`/`OverflowError`) that aborts generation. -/
def parse_address_or_size (e : AddrExpr) : Option Int :=
  match e with
  | .int n => some n
  | .str s =>
    let cs := pyStrip s.data
    if startsList "0x".data cs || startsList "0X".data cs then
      pyIntHex cs
    else
      match findSuffix sizeSuffixes cs with
      | some sm =>
        let number := pyStrip (cs.take (cs.length - sm.1.data.length))
        match pyFloatOfChars number with
        | none => none
        | some x =>
          match pyfMulPow2 x (log2f sm.2) with
          | none => none
          | some y => some (pyfTrunc y)
      | none => pyIntDec cs

/-- `format_hex` from `genboot.py`.  A string that does not start with
`0x`/`0X` reaches the `f"0x{value:08x}"` format with a `str` argument, which
raises; that is modelled as `none`.  Inside `generate_uboot_script` the
function is only applied to the integer results of `parse_address_or_size`,
where it reduces to `hex8str`. -/
def format_hex (e : AddrExpr) : Option String :=
  match e with
  | .str s =>
    if startsList "0x".data s.data || startsList "0X".data s.data then some s else none
  | .int v => some (hex8str v)

/-- `get_file_size` from `genboot.py`.  The filesystem is the external oracle
`fs` mapping a path to the byte size of an existing file.  The second
component is the list of warning lines printed to `stderr` (the diagnostic
stream), never part of the generated script. -/
def get_file_size (fs : String → Option Nat) (directory : String) (filename : Option String) :
    Nat × List String :=
  match filename with
  | none => (0x100000, [])
  | some f =>
    if f = "" then (0x100000, [])
    else
      let filepath := directory ++ "/" ++ f
      match fs filepath with
      | none => (0x100000, ["Warning: File " ++ filepath ++ " not found, using default size 0x100000"])
      | some sz => (sz, [])

/-! ### Configuration tree (parsed YAML) -/

/-- A `kernel`/`dt`/`ramdisk` sub-record of a domain (`bootargs` is only
consulted for the kernel; `.get('bootargs', '')` makes a missing key and an
empty string indistinguishable). -/
structure ModCfg where
  file : Option String := none
  addr : Option AddrExpr := none
  bootargs : String := ""
deriving DecidableEq

structure ParamsCfg where
  cpus : Option Int := none
  memory : Option AddrExpr := none
  vpl011 : Bool := false
deriving DecidableEq

structure DomainCfg where
  kernel : ModCfg := {}
  dt : ModCfg := {}
  ramdisk : ModCfg := {}
  params : ParamsCfg := {}
deriving DecidableEq

structure MediaCfg where
  type : Option String := none
  number : Option Int := none
deriving DecidableEq

structure XenCfg where
  file : Option String := none
  addr : Option AddrExpr := none
  bootargs : String := ""
  bootonly : Option (List String) := none
  colors : Option (List String) := none
deriving DecidableEq

structure DtCfg where
  file : Option String := none
  addr : Option AddrExpr := none
deriving DecidableEq

/-- The `domains` mapping keeps its YAML (insertion) order, as a Python dict
does; keys are unique in YAML, lookups take the first match. -/
structure Config where
  media : MediaCfg := {}
  xen : XenCfg := {}
  dt : DtCfg := {}
  domains : List (String × DomainCfg) := []
deriving DecidableEq

def lookupDomain (ds : List (String × DomainCfg)) (n : String) : Option DomainCfg :=
  (ds.find? (fun p => p.1 == n)).map Prod.snd

/-- Python truthiness of an optional string (`None` and `""` are falsy). -/
def fileOpt (f : Option String) : Option String :=
  match f with
  | none => none
  | some s => if s = "" then none else some s

/-- `bootonly` as iterated by both loops: the configured list if present
(`is None` check, so an explicit empty list stays empty), else the key order
of `domains`. -/
def bootEff (cfg : Config) : List String := cfg.xen.bootonly.getD (cfg.domains.map Prod.fst)

/-- 1-based enumeration, `enumerate(bootonly, 1)`. -/
def enum1 {α : Type} : Nat → List α → List (Nat × α)
  | _, [] => []
  | i, a :: rest => (i, a) :: enum1 (i + 1) rest

/-- `" ".join(parts)`. -/
def joinSp : List String → String
  | [] => ""
  | [s] => s
  | s :: rest => s ++ " " ++ joinSp rest

/-- The `bootargs_parts` list of lines 134-146. -/
def bootargsParts (xen : XenCfg) : List String :=
  (if xen.bootargs = "" then [] else [xen.bootargs]) ++
  (let cs := xen.colors.getD []
   if cs.isEmpty then []
   else
     "llc-coloring=on" ::
       (match cs with
        | [] => []
        | c0 :: _ => if c0 = "none" then [] else ["xen-llc-colors=" ++ c0]))

/-- Lines 193-199: the first entry after index 0 that is not `"none"`, if the
colors list has more than one entry. -/
def domColorSel (colors : List String) : Option String :=
  if 1 < colors.length then (colors.drop 1).find? (fun c => c != "none") else none

def fatline (mt : String) (mn : Int) (addr : String) (f : String) : String :=
  "fatload " ++ mt ++ " " ++ intDecStr mn ++ " " ++ addr ++ " " ++ f

/-- Load-phase lines for a single selected domain (lines 100-122): the three
addresses are parsed (and can raise) whether or not a file is configured; a
`fatload` is emitted only for a configured, non-empty file name. -/
def loadDomainLines (mt : String) (mn : Int) (d : DomainCfg) : Option (List String) :=
  match parse_address_or_size (d.kernel.addr.getD (.str "0x03000000")) with
  | none => none
  | some ka =>
  match parse_address_or_size (d.dt.addr.getD (.str "0x04000000")) with
  | none => none
  | some da =>
  match parse_address_or_size (d.ramdisk.addr.getD (.str "0x05000000")) with
  | none => none
  | some ra =>
  some ((match fileOpt d.kernel.file with
         | some f => [fatline mt mn (hex8str ka) f]
         | none => []) ++
        (match fileOpt d.dt.file with
         | some f => [fatline mt mn (hex8str da) f]
         | none => []) ++
        (match fileOpt d.ramdisk.file with
         | some f => [fatline mt mn (hex8str ra) f]
         | none => []))

/-- Lines 94-122: load files of the selected domains, skipping names that are
not keys of `domains`. -/
def loadPhase (mt : String) (mn : Int) (doms : List (String × DomainCfg)) :
    List String → Option (List String)
  | [] => some []
  | n :: rest =>
    match lookupDomain doms n with
    | none => loadPhase mt mn doms rest
    | some d =>
      match loadDomainLines mt mn d with
      | none => none
      | some a =>
        match loadPhase mt mn doms rest with
        | none => none
        | some b => some (a ++ b)

/-- The pure part of the domain-construction body (lines 163-242), after all
address parses succeeded. -/
def domainLines (fs : String → Option Nat) (directory : String) (colors : List String)
    (i : Nat) (d : DomainCfg) (mb ka dta ra : Int) : List String :=
  let dom := "/chosen/domU" ++ natDecStr i
  let kah := hex8str ka
  let dah := hex8str dta
  let rah := hex8str ra
  let cpus := d.params.cpus.getD 1
  let kernel_size : Nat :=
    match fileOpt d.kernel.file with
    | some _ => (get_file_size fs directory d.kernel.file).1
    | none => 0x100000
  ["fdt mknode /chosen domU" ++ natDecStr i,
   "fdt set " ++ dom ++ " compatible \"xen,domain\"",
   "fdt set " ++ dom ++ " cpus <0x" ++ intHexStr cpus ++ ">",
   "fdt set " ++ dom ++ " \\#address-cells <0x1>",
   "fdt set " ++ dom ++ " \\#size-cells <0x1>",
   "fdt set " ++ dom ++ " memory <0x0 0x" ++ intHexStr mb ++ ">",
   ""] ++
  (if d.params.vpl011 then ["fdt set " ++ dom ++ " vpl011"] else []) ++
  ["fdt mknode " ++ dom ++ " module@" ++ kah] ++
  (match domColorSel colors with
   | some c => ["fdt set " ++ dom ++ " llc-colors \"" ++ c ++ "\""]
   | none => []) ++
  ["fdt set " ++ dom ++ "/module@" ++ kah ++ " compatible \"multiboot,kernel\" \"multiboot,module\"",
   "fdt set " ++ dom ++ "/module@" ++ kah ++ " reg <" ++ kah ++ " 0x" ++ natHexStr kernel_size ++ ">",
   ""] ++
  (if d.kernel.bootargs = "" then []
   else ["fdt set " ++ dom ++ "/module@" ++ kah ++ " bootargs \"" ++ d.kernel.bootargs ++ "\"", ""]) ++
  (match fileOpt d.dt.file with
   | some _ =>
     ["fdt mknode " ++ dom ++ " module@" ++ dah,
      "fdt set " ++ dom ++ "/module@" ++ dah ++ " compatible \"multiboot,device-tree\" \"multiboot,module\"",
      "fdt set " ++ dom ++ "/module@" ++ dah ++ " reg <" ++ dah ++ " " ++
        natDecStr (get_file_size fs directory d.dt.file).1 ++ ">",
      "", ""]
   | none => []) ++
  (match fileOpt d.ramdisk.file with
   | some _ =>
     ["fdt mknode " ++ dom ++ " module@" ++ rah,
      "fdt set " ++ dom ++ "/module@" ++ rah ++ " compatible \"multiboot,ramdisk\" \"multiboot,module\"",
      "fdt set " ++ dom ++ "/module@" ++ rah ++ " reg <" ++ rah ++ " 0x" ++
        natHexStr (get_file_size fs directory d.ramdisk.file).1 ++ ">",
      ""]
   | none => [])

/-- Construction-phase body for one selected domain (lines 160-242).  The
memory expression, the three module addresses, and the float division
`int(parse_address_or_size(memory) / 1024)` can all raise. -/
def constructDomain (fs : String → Option Nat) (directory : String) (colors : List String)
    (i : Nat) (d : DomainCfg) : Option (List String) :=
  match parse_address_or_size (d.params.memory.getD (.str "64MiB")) with
  | none => none
  | some mem =>
  match pyIntTrueDiv mem 1024 with
  | none => none
  | some mb =>
  match parse_address_or_size (d.kernel.addr.getD (.str "0x03000000")) with
  | none => none
  | some ka =>
  match parse_address_or_size (d.dt.addr.getD (.str "0x04000000")) with
  | none => none
  | some dta =>
  match parse_address_or_size (d.ramdisk.addr.getD (.str "0x05000000")) with
  | none => none
  | some ra => some (domainLines fs directory colors i d mb ka dta ra)

/-- Lines 156-242: `for i, domain_name in enumerate(bootonly, 1)` with the
`continue` for unknown names; note the index advances on skipped names. -/
def constructionPhase (fs : String → Option Nat) (directory : String) (colors : List String)
    (doms : List (String × DomainCfg)) : List (Nat × String) → Option (List String)
  | [] => some []
  | (i, n) :: rest =>
    match lookupDomain doms n with
    | none => constructionPhase fs directory colors doms rest
    | some d =>
      match constructDomain fs directory colors i d with
      | none => none
      | some a =>
        match constructionPhase fs directory colors doms rest with
        | none => none
        | some b => some (a ++ b)

/-- The device-tree-prep lines (125-153), given the formatted dt address. -/
def prepLines (xen : XenCfg) (dt_addr : String) : List String :=
  ["fdt addr " ++ dt_addr, "fdt resize 2048", ""] ++
  (match bootargsParts xen with
   | [] => []
   | parts => ["fdt set /chosen xen,xen-bootargs \"" ++ joinSp parts ++ "\""]) ++
  ["", ""]

/-- `generate_uboot_script` from `genboot.py`.  `fs` abstracts the
filesystem (§4.3's external collaborator), `none` models any exception, which
`main` catches: it prints the error on `stderr` and exits non-zero without
having written anything to `stdout` (the script is printed only after
`generate_uboot_script` returns the complete string). -/
def generate_uboot_script (cfg : Config) (fs : String → Option Nat) (directory : String) :
    Option (List String) :=
  let media_type := cfg.media.type.getD "mmc"
  let media_number := cfg.media.number.getD 0
  match parse_address_or_size (cfg.xen.addr.getD (.str "0x01000000")) with
  | none => none
  | some xa =>
  let xen_addr := hex8str xa
  match parse_address_or_size (cfg.dt.addr.getD (.str "0x02000000")) with
  | none => none
  | some da =>
  let dt_addr := hex8str da
  let bootonly := bootEff cfg
  match loadPhase media_type media_number cfg.domains bootonly with
  | none => none
  | some loads =>
  match constructionPhase fs directory (cfg.xen.colors.getD []) cfg.domains (enum1 1 bootonly) with
  | none => none
  | some cons =>
  some ((match fileOpt cfg.xen.file with
         | some f => [fatline media_type media_number xen_addr f]
         | none => []) ++
        (match fileOpt cfg.dt.file with
         | some f => [fatline media_type media_number dt_addr f]
         | none => []) ++
        loads ++
        prepLines cfg.xen dt_addr ++
        cons ++
        ["fdt print /chosen", "booti " ++ xen_addr ++ " - " ++ dt_addr])

/-! ### Token-level views of generated lines -/

theorem mk_data (cs : List Char) : (String.mk cs).data = cs := rfl

/-- `s` contains no space character. -/
def noSp (s : String) : Prop := ∀ c ∈ s.data, c ≠ ' '

theorem noSp_append {a b : String} (ha : noSp a) (hb : noSp b) : noSp (a ++ b) := by
  intro c hc
  rw [String.data_append] at hc
  rcases List.mem_append.mp hc with h | h
  · exact ha c h
  · exact hb c h

theorem noSp_baseChars {b n : Nat} (hb : 2 ≤ b) (hb16 : b ≤ 16) :
    ∀ c ∈ baseChars b n, c ≠ ' ' := by
  intro c hc
  obtain ⟨d, hd, rfl⟩ := baseChars_digits b n hb hb16 c hc
  exact (digitChar_not_special hd).1

theorem noSp_natDecStr (n : Nat) : noSp (natDecStr n) := by
  intro c hc
  exact noSp_baseChars (by omega) (by omega) c hc

theorem noSp_natHexStr (n : Nat) : noSp (natHexStr n) := by
  intro c hc
  exact noSp_baseChars (by omega) (by omega) c hc

theorem noSp_intHexStr (v : Int) : noSp (intHexStr v) := by
  rw [intHexStr]
  by_cases h : v < 0
  · rw [if_pos h]
    refine noSp_append ?_ (noSp_natHexStr _)
    intro c hc; simp at hc; subst hc; decide
  · rw [if_neg h]; exact noSp_natHexStr _

theorem noSp_hex8str (v : Int) : noSp (hex8str v) := by
  rw [hex8str]
  refine noSp_append ?_ ?_
  · intro c hc; simp [String.data] at hc; rcases hc with rfl | rfl <;> decide
  · by_cases h : v < 0
    · rw [if_pos h]
      refine noSp_append ?_ ?_
      · intro c hc; simp at hc; subst hc; decide
      · intro c hc
        rw [mk_data] at hc
        rcases List.mem_append.mp hc with h2 | h2
        · rw [List.eq_of_mem_replicate h2]; decide
        · exact noSp_baseChars (by omega) (by omega) c h2
    · rw [if_neg h]
      intro c hc
      rw [mk_data] at hc
      rcases List.mem_append.mp hc with h2 | h2
      · rw [List.eq_of_mem_replicate h2]; decide
      · exact noSp_baseChars (by omega) (by omega) c h2

theorem noSp_lit {s : String} (h : s.data.all (fun c => !(c == ' ')) = true) : noSp s := by
  intro c hc
  have := List.all_eq_true.mp h c hc
  simpa using this

theorem noSp_domPath (i : Nat) : noSp ("/chosen/domU" ++ natDecStr i) :=
  noSp_append (noSp_lit (by decide)) (noSp_natDecStr i)

theorem noSp_modPath (i : Nat) (a : Int) :
    noSp ("/chosen/domU" ++ natDecStr i ++ "/module@" ++ hex8str a) :=
  noSp_append (noSp_append (noSp_domPath i) (noSp_lit (by decide))) (noSp_hex8str a)

/-- Is a line an `fdt set <path> llc-colors ...` command?  The property name is
the fourth space-separated token of the line. -/
def colorCmdB (l : String) : Bool :=
  ((splitSp l.data).get? 0 == some "fdt".data) &&
  ((splitSp l.data).get? 1 == some "set".data) &&
  ((splitSp l.data).get? 3 == some "llc-colors".data)

theorem tokens_fdt_set (P S : String) (S' : List Char) (hP : noSp P) (hS : S.data = ' ' :: S') :
    splitSp ("fdt set " ++ P ++ S).data = "fdt".data :: "set".data :: P.data :: splitSp S' := by
  have hdata : ("fdt set " ++ P ++ S).data =
      "fdt".data ++ ' ' :: ("set".data ++ ' ' :: (P.data ++ ' ' :: S')) := by
    rw [String.data_append, String.data_append, hS]
    have : "fdt set ".data = "fdt".data ++ ' ' :: "set".data ++ [' '] := by decide
    rw [this]
    simp
  rw [hdata,
    splitSp_token_append (by intro c hc; fin_cases hc <;> decide),
    splitSp_token_append (by intro c hc; fin_cases hc <;> decide),
    splitSp_token_append hP]

theorem colorCmdB_fdt_set (P S : String) (S' : List Char) (hP : noSp P) (hS : S.data = ' ' :: S') :
    colorCmdB ("fdt set " ++ P ++ S) = ((splitSp S').get? 0 == some "llc-colors".data) := by
  rw [colorCmdB, tokens_fdt_set P S S' hP hS]
  simp [List.get?]

theorem startsTok_general (t0 : String) (R : List Char) (h0 : noSp t0) :
    splitSp (t0.data ++ ' ' :: R) = t0.data :: splitSp R :=
  splitSp_token_append h0

theorem splitSp_get0_word (w : String) (R : List Char) (hw : noSp w) :
    (splitSp (w.data ++ ' ' :: R)).get? 0 = some w.data := by
  rw [splitSp_token_append hw]; rfl

theorem splitSp_get0_whole (w : String) (hw : noSp w) :
    (splitSp w.data).get? 0 = some w.data := by
  rw [splitSp_no_space hw]; rfl

theorem cc_set_line (P : String) (hP : noSp P) (w : String) (hw : noSp w)
    (hne : (w.data == "llc-colors".data) = false) (l : String) (S' : List Char)
    (hl : l.data = "fdt".data ++ ' ' :: ("set".data ++ ' ' :: (P.data ++ ' ' :: (w.data ++ S'))))
    (hS : S' = [] ∨ ∃ R, S' = ' ' :: R) :
    colorCmdB l = false := by
  rw [colorCmdB, hl,
    splitSp_token_append (@noSp_lit "fdt" (by decide)),
    splitSp_token_append (@noSp_lit "set" (by decide)),
    splitSp_token_append hP]
  rcases hS with rfl | ⟨R, rfl⟩
  · rw [List.append_nil, splitSp_no_space hw]
    simp [List.get?, hne]
  · rw [splitSp_token_append hw]
    simp [List.get?, hne]

theorem cc_word_line (t0 : String) (h0 : noSp t0) (hne : (t0.data == "fdt".data) = false)
    (l : String) (R : List Char) (hl : l.data = t0.data ++ ' ' :: R) :
    colorCmdB l = false := by
  rw [colorCmdB, hl, splitSp_token_append h0]
  simp [List.get?, hne]

theorem cc_fdt_other (t1 : String) (h1 : noSp t1) (hne : (t1.data == "set".data) = false)
    (l : String) (R : List Char)
    (hl : l.data = "fdt".data ++ ' ' :: (t1.data ++ ' ' :: R)) :
    colorCmdB l = false := by
  rw [colorCmdB, hl,
    splitSp_token_append (@noSp_lit "fdt" (by decide)),
    splitSp_token_append h1]
  simp [List.get?, hne]

theorem cc_fatline (mt addr f : String) (mn : Int) : colorCmdB (fatline mt mn addr f) = false := by
  apply cc_word_line "fatload" (noSp_lit (by decide)) (by decide) _
    ((mt ++ " " ++ intDecStr mn ++ " " ++ addr ++ " " ++ f).data)
  rw [fatline]
  simp only [String.data_append, List.append_assoc]
  rfl

theorem cc_fdt_addr (A : String) : colorCmdB ("fdt addr " ++ A) = false := by
  apply cc_fdt_other "addr" (noSp_lit (by decide)) (by decide) _ A.data
  simp only [String.data_append, List.append_assoc]
  rfl

theorem cc_booti (A B : String) : colorCmdB ("booti " ++ A ++ " - " ++ B) = false := by
  apply cc_word_line "booti" (noSp_lit (by decide)) (by decide) _ ((A ++ " - " ++ B).data)
  simp only [String.data_append, List.append_assoc]
  rfl

theorem cc_rootargs (V : String) :
    colorCmdB ("fdt set /chosen xen,xen-bootargs \"" ++ V ++ "\"") = false := by
  apply cc_set_line "/chosen" (noSp_lit (by decide)) "xen,xen-bootargs" (noSp_lit (by decide))
    (by decide) _ (' ' :: ('"' :: (V.data ++ "\"".data))) ?_ (Or.inr ⟨_, rfl⟩)
  simp only [String.data_append, List.append_assoc]
  rfl

theorem cc_mknode_dom (i : Nat) : colorCmdB ("fdt mknode /chosen domU" ++ natDecStr i) = false := by
  apply cc_fdt_other "mknode" (noSp_lit (by decide)) (by decide) _
    ("/chosen".data ++ ' ' :: ("domU".data ++ (natDecStr i).data))
  simp only [String.data_append, List.append_assoc]
  rfl

theorem cc_mknode_mod (P A : String) : colorCmdB ("fdt mknode " ++ P ++ " module@" ++ A) = false := by
  apply cc_fdt_other "mknode" (noSp_lit (by decide)) (by decide) _
    ((P ++ " module@" ++ A).data)
  simp only [String.data_append, List.append_assoc]
  rfl

theorem cc_set_lit (P S : String) (hP : noSp P) (w : String) (S' : List Char) (hw : noSp w)
    (hne : (w.data == "llc-colors".data) = false)
    (hS : S.data = ' ' :: (w.data ++ S')) (hsh : S' = [] ∨ ∃ R, S' = ' ' :: R) :
    colorCmdB ("fdt set " ++ P ++ S) = false := by
  apply cc_set_line P hP w hw hne _ S' ?_ hsh
  simp only [String.data_append, List.append_assoc, hS]
  rfl

theorem cc_compat_xen (P : String) (hP : noSp P) :
    colorCmdB ("fdt set " ++ P ++ " compatible \"xen,domain\"") = false :=
  cc_set_lit P _ hP "compatible" (' ' :: "\"xen,domain\"".data) (noSp_lit (by decide))
    (by decide) (by decide) (Or.inr ⟨_, rfl⟩)

theorem cc_compat_multi (P T : String) (hP : noSp P) :
    colorCmdB ("fdt set " ++ P ++ (" compatible \"multiboot," ++ T)) = false := by
  apply cc_set_line P hP "compatible" (noSp_lit (by decide)) (by decide) _
    (' ' :: ("\"multiboot,".data ++ T.data)) ?_ (Or.inr ⟨_, rfl⟩)
  simp only [String.data_append, List.append_assoc]
  rfl

theorem cc_cpus (P X : String) (hP : noSp P) :
    colorCmdB ("fdt set " ++ P ++ " cpus <0x" ++ X ++ ">") = false := by
  apply cc_set_line P hP "cpus" (noSp_lit (by decide)) (by decide) _
    (' ' :: ("<0x".data ++ (X.data ++ ">".data))) ?_ (Or.inr ⟨_, rfl⟩)
  simp only [String.data_append, List.append_assoc]
  rfl

theorem cc_acells (P : String) (hP : noSp P) :
    colorCmdB ("fdt set " ++ P ++ " \\#address-cells <0x1>") = false :=
  cc_set_lit P _ hP "\\#address-cells" (' ' :: "<0x1>".data) (noSp_lit (by decide))
    (by decide) (by decide) (Or.inr ⟨_, rfl⟩)

theorem cc_scells (P : String) (hP : noSp P) :
    colorCmdB ("fdt set " ++ P ++ " \\#size-cells <0x1>") = false :=
  cc_set_lit P _ hP "\\#size-cells" (' ' :: "<0x1>".data) (noSp_lit (by decide))
    (by decide) (by decide) (Or.inr ⟨_, rfl⟩)

theorem cc_memory (P X : String) (hP : noSp P) :
    colorCmdB ("fdt set " ++ P ++ " memory <0x0 0x" ++ X ++ ">") = false := by
  apply cc_set_line P hP "memory" (noSp_lit (by decide)) (by decide) _
    (' ' :: ("<0x0".data ++ ' ' :: ("0x".data ++ (X.data ++ ">".data)))) ?_ (Or.inr ⟨_, rfl⟩)
  simp only [String.data_append, List.append_assoc]
  rfl

theorem cc_vpl011 (P : String) (hP : noSp P) :
    colorCmdB ("fdt set " ++ P ++ " vpl011") = false :=
  cc_set_lit P _ hP "vpl011" [] (noSp_lit (by decide)) (by decide) (by decide) (Or.inl rfl)

theorem cc_reg (P A SEP X : String) (hP : noSp P) :
    colorCmdB ("fdt set " ++ P ++ " reg <" ++ A ++ SEP ++ X ++ ">") = false := by
  apply cc_set_line P hP "reg" (noSp_lit (by decide)) (by decide) _
    (' ' :: ("<".data ++ (A.data ++ (SEP.data ++ (X.data ++ ">".data))))) ?_ (Or.inr ⟨_, rfl⟩)
  simp only [String.data_append, List.append_assoc]
  rfl

theorem cc_bootargs_mod (P B : String) (hP : noSp P) :
    colorCmdB ("fdt set " ++ P ++ " bootargs \"" ++ B ++ "\"") = false := by
  apply cc_set_line P hP "bootargs" (noSp_lit (by decide)) (by decide) _
    (' ' :: ('"' :: (B.data ++ "\"".data))) ?_ (Or.inr ⟨_, rfl⟩)
  simp only [String.data_append, List.append_assoc]
  rfl

theorem cc_set_modpath (P A S : String) (w : String) (S' : List Char)
    (hw : noSp w) (hne : (w.data == "llc-colors".data) = false)
    (hS : S.data = ' ' :: (w.data ++ S')) (hsh : S' = [] ∨ ∃ R, S' = ' ' :: R)
    (hP : noSp P) (hA : noSp A) :
    colorCmdB ("fdt set " ++ P ++ "/module@" ++ A ++ S) = false := by
  apply cc_set_line (P ++ "/module@" ++ A)
    (noSp_append (noSp_append hP (noSp_lit (by decide))) hA) w hw hne _ S' ?_ hsh
  simp only [String.data_append, List.append_assoc, hS]
  rfl

theorem cc_compat_mod (P A T : String) (hP : noSp P) (hA : noSp A) :
    colorCmdB ("fdt set " ++ P ++ "/module@" ++ A ++ (" compatible \"multiboot," ++ T)) = false := by
  apply cc_set_line (P ++ "/module@" ++ A)
    (noSp_append (noSp_append hP (noSp_lit (by decide))) hA) "compatible" (noSp_lit (by decide))
    (by decide) _ (' ' :: ("\"multiboot,".data ++ T.data)) ?_ (Or.inr ⟨_, rfl⟩)
  simp only [String.data_append, List.append_assoc]
  rfl

theorem cc_reg_mod (P A B SEP X : String) (hP : noSp P) (hA : noSp A) :
    colorCmdB ("fdt set " ++ P ++ "/module@" ++ A ++ " reg <" ++ B ++ SEP ++ X ++ ">") = false := by
  apply cc_set_line (P ++ "/module@" ++ A)
    (noSp_append (noSp_append hP (noSp_lit (by decide))) hA) "reg" (noSp_lit (by decide))
    (by decide) _ (' ' :: ("<".data ++ (B.data ++ (SEP.data ++ (X.data ++ ">".data)))))
    ?_ (Or.inr ⟨_, rfl⟩)
  simp only [String.data_append, List.append_assoc]
  rfl

theorem cc_bootargs_modpath (P A B : String) (hP : noSp P) (hA : noSp A) :
    colorCmdB ("fdt set " ++ P ++ "/module@" ++ A ++ " bootargs \"" ++ B ++ "\"") = false := by
  apply cc_set_line (P ++ "/module@" ++ A)
    (noSp_append (noSp_append hP (noSp_lit (by decide))) hA) "bootargs" (noSp_lit (by decide))
    (by decide) _ (' ' :: ('"' :: (B.data ++ "\"".data))) ?_ (Or.inr ⟨_, rfl⟩)
  simp only [String.data_append, List.append_assoc]
  rfl

theorem cc_resize : colorCmdB "fdt resize 2048" = false := by decide

theorem cc_blank : colorCmdB "" = false := by decide

theorem cc_print : colorCmdB "fdt print /chosen" = false := by decide

theorem mem_optFat {X : Option String} {mt : String} {mn : Int} {addr l : String}
    (h : l ∈ (match fileOpt X with
              | some f => [fatline mt mn addr f]
              | none => ([] : List String))) :
    ∃ f, l = fatline mt mn addr f := by
  rcases hX : fileOpt X with _ | f
  · rw [hX] at h; simp at h
  · rw [hX] at h
    simp only [List.mem_singleton] at h
    exact ⟨f, h⟩

theorem cc_loadDomain {mt : String} {mn : Int} {d : DomainCfg} {lls : List String}
    (h : loadDomainLines mt mn d = some lls) : ∀ l ∈ lls, colorCmdB l = false := by
  rw [loadDomainLines] at h
  split at h
  · cases h
  · split at h
    · cases h
    · split at h
      · cases h
      · injection h with h
        subst h
        intro l hl
        rcases List.mem_append.mp hl with hl | hl
        · rcases List.mem_append.mp hl with hl | hl
          · obtain ⟨f, rfl⟩ := mem_optFat hl
            exact cc_fatline _ _ _ _
          · obtain ⟨f, rfl⟩ := mem_optFat hl
            exact cc_fatline _ _ _ _
        · obtain ⟨f, rfl⟩ := mem_optFat hl
          exact cc_fatline _ _ _ _

theorem cc_loadPhase {mt : String} {mn : Int} {doms : List (String × DomainCfg)} :
    ∀ {bl : List String} {loads : List String}, loadPhase mt mn doms bl = some loads →
      ∀ l ∈ loads, colorCmdB l = false := by
  intro bl
  induction bl with
  | nil =>
    intro loads h
    rw [loadPhase] at h
    injection h with h
    subst h
    intro l hl
    simp at hl
  | cons n rest ih =>
    intro loads h
    rw [loadPhase] at h
    split at h
    · exact ih h
    · split at h
      · cases h
      · split at h
        · cases h
        · injection h with h
          subst h
          intro l hl
          rcases List.mem_append.mp hl with hl | hl
          · exact cc_loadDomain (by assumption) l hl
          · exact ih (by assumption) l hl

theorem cc_prepLines (xen : XenCfg) (A : String) : ∀ l ∈ prepLines xen A, colorCmdB l = false := by
  intro l hl
  rw [prepLines] at hl
  rcases List.mem_append.mp hl with hl | hl
  · rcases List.mem_append.mp hl with hl | hl
    · simp only [List.mem_cons, List.not_mem_nil, or_false] at hl
      rcases hl with rfl | rfl | rfl
      · exact cc_fdt_addr A
      · exact cc_resize
      · exact cc_blank
    · revert hl
      split
      · intro hl; simp at hl
      · intro hl
        rw [List.mem_singleton] at hl
        subst hl
        exact cc_rootargs _
  · simp only [List.mem_cons, List.not_mem_nil, or_false] at hl
    rcases hl with rfl | rfl
    · exact cc_blank
    · exact cc_blank

theorem cc_domainLines {fs : String → Option Nat} {dir : String} {colors : List String}
    {i : Nat} {d : DomainCfg} {mb ka dta ra : Int}
    (hsel : domColorSel colors = none) :
    ∀ l ∈ domainLines fs dir colors i d mb ka dta ra, colorCmdB l = false := by
  intro l hl
  simp only [domainLines, hsel] at hl
  rcases List.mem_append.mp hl with hl | hl
  · rcases List.mem_append.mp hl with hl | hl
    · rcases List.mem_append.mp hl with hl | hl
      · rcases List.mem_append.mp hl with hl | hl
        · rcases List.mem_append.mp hl with hl | hl
          · rcases List.mem_append.mp hl with hl | hl
            · rcases List.mem_append.mp hl with hl | hl
              · simp only [List.mem_cons, List.not_mem_nil, or_false] at hl
                rcases hl with rfl | rfl | rfl | rfl | rfl | rfl | rfl
                · exact cc_mknode_dom i
                · exact cc_compat_xen _ (noSp_domPath i)
                · exact cc_cpus _ _ (noSp_domPath i)
                · exact cc_acells _ (noSp_domPath i)
                · exact cc_scells _ (noSp_domPath i)
                · exact cc_memory _ _ (noSp_domPath i)
                · exact cc_blank
              · revert hl
                split
                · intro hl
                  rw [List.mem_singleton] at hl
                  subst hl
                  exact cc_vpl011 _ (noSp_domPath i)
                · intro hl; simp at hl
            · rw [List.mem_singleton] at hl
              subst hl
              exact cc_mknode_mod _ _
          · simp at hl
        · simp only [List.mem_cons, List.not_mem_nil, or_false] at hl
          rcases hl with rfl | rfl | rfl
          · exact cc_set_modpath _ _ _ "compatible"
              (' ' :: "\"multiboot,kernel\" \"multiboot,module\"".data) (noSp_lit (by decide))
              (by decide) (by decide) (Or.inr ⟨_, rfl⟩) (noSp_domPath i) (noSp_hex8str ka)
          · exact cc_reg_mod _ _ _ _ _ (noSp_domPath i) (noSp_hex8str ka)
          · exact cc_blank
      · revert hl
        split
        · intro hl; simp at hl
        · intro hl
          simp only [List.mem_cons, List.not_mem_nil, or_false] at hl
          rcases hl with rfl | rfl
          · exact cc_bootargs_modpath _ _ _ (noSp_domPath i) (noSp_hex8str ka)
          · exact cc_blank
    · revert hl
      rcases hX : fileOpt d.dt.file with _ | f
      · intro hl; simp at hl
      · intro hl
        simp only [List.mem_cons, List.not_mem_nil, or_false] at hl
        rcases hl with rfl | rfl | rfl | rfl | rfl
        · exact cc_mknode_mod _ _
        · exact cc_set_modpath _ _ _ "compatible"
            (' ' :: "\"multiboot,device-tree\" \"multiboot,module\"".data) (noSp_lit (by decide))
            (by decide) (by decide) (Or.inr ⟨_, rfl⟩) (noSp_domPath i) (noSp_hex8str dta)
        · exact cc_reg_mod _ _ _ _ _ (noSp_domPath i) (noSp_hex8str dta)
        · exact cc_blank
        · exact cc_blank
  · revert hl
    rcases hX : fileOpt d.ramdisk.file with _ | f
    · intro hl; simp at hl
    · intro hl
      simp only [List.mem_cons, List.not_mem_nil, or_false] at hl
      rcases hl with rfl | rfl | rfl | rfl
      · exact cc_mknode_mod _ _
      · exact cc_set_modpath _ _ _ "compatible"
          (' ' :: "\"multiboot,ramdisk\" \"multiboot,module\"".data) (noSp_lit (by decide))
          (by decide) (by decide) (Or.inr ⟨_, rfl⟩) (noSp_domPath i) (noSp_hex8str ra)
      · exact cc_reg_mod _ _ _ _ _ (noSp_domPath i) (noSp_hex8str ra)
      · exact cc_blank

theorem cc_constructDomain {fs : String → Option Nat} {dir : String} {colors : List String}
    {i : Nat} {d : DomainCfg} {dls : List String}
    (hsel : domColorSel colors = none) (h : constructDomain fs dir colors i d = some dls) :
    ∀ l ∈ dls, colorCmdB l = false := by
  rw [constructDomain] at h
  split at h
  · cases h
  · split at h
    · cases h
    · split at h
      · cases h
      · split at h
        · cases h
        · split at h
          · cases h
          · injection h with h
            subst h
            exact cc_domainLines hsel

theorem cc_constructionPhase {fs : String → Option Nat} {dir : String} {colors : List String}
    {doms : List (String × DomainCfg)} (hsel : domColorSel colors = none) :
    ∀ {ps : List (Nat × String)} {cons : List String},
      constructionPhase fs dir colors doms ps = some cons →
      ∀ l ∈ cons, colorCmdB l = false := by
  intro ps
  induction ps with
  | nil =>
    intro cons h
    rw [constructionPhase] at h
    injection h with h
    subst h
    intro l hl
    simp at hl
  | cons p rest ih =>
    intro cons h
    rw [constructionPhase] at h
    split at h
    · exact ih h
    · split at h
      · cases h
      · split at h
        · cases h
        · injection h with h
          subst h
          intro l hl
          rcases List.mem_append.mp hl with hl | hl
          · exact cc_constructDomain hsel (by assumption) l hl
          · exact ih (by assumption) l hl

/-- Success characterization of `generate_uboot_script`: the script exists iff
every parse step succeeds, and then it is the concatenation of the phases. -/
theorem generate_some_iff {cfg : Config} {fs : String → Option Nat} {dir : String}
    {ls : List String} :
    generate_uboot_script cfg fs dir = some ls ↔
    ∃ xa da loads cons,
      parse_address_or_size (cfg.xen.addr.getD (.str "0x01000000")) = some xa ∧
      parse_address_or_size (cfg.dt.addr.getD (.str "0x02000000")) = some da ∧
      loadPhase (cfg.media.type.getD "mmc") (cfg.media.number.getD 0) cfg.domains
        (bootEff cfg) = some loads ∧
      constructionPhase fs dir (cfg.xen.colors.getD []) cfg.domains
        (enum1 1 (bootEff cfg)) = some cons ∧
      ls = (match fileOpt cfg.xen.file with
            | some f => [fatline (cfg.media.type.getD "mmc") (cfg.media.number.getD 0) (hex8str xa) f]
            | none => []) ++
           (match fileOpt cfg.dt.file with
            | some f => [fatline (cfg.media.type.getD "mmc") (cfg.media.number.getD 0) (hex8str da) f]
            | none => []) ++
           loads ++
           prepLines cfg.xen (hex8str da) ++
           cons ++
           ["fdt print /chosen", "booti " ++ hex8str xa ++ " - " ++ hex8str da] := by
  constructor
  · intro h
    rw [generate_uboot_script] at h
    rcases hxa : parse_address_or_size (cfg.xen.addr.getD (.str "0x01000000")) with _ | xa
    · simp only [hxa] at h; cases h
    simp only [hxa] at h
    rcases hda : parse_address_or_size (cfg.dt.addr.getD (.str "0x02000000")) with _ | da
    · simp only [hda] at h; cases h
    simp only [hda] at h
    rcases hld : loadPhase (cfg.media.type.getD "mmc") (cfg.media.number.getD 0) cfg.domains
        (bootEff cfg) with _ | loads
    · simp only [hld] at h; cases h
    simp only [hld] at h
    rcases hcn : constructionPhase fs dir (cfg.xen.colors.getD []) cfg.domains
        (enum1 1 (bootEff cfg)) with _ | cons
    · simp only [hcn] at h; cases h
    simp only [hcn, Option.some.injEq] at h
    exact ⟨xa, da, loads, cons, rfl, rfl, rfl, rfl, h.symm⟩
  · rintro ⟨xa, da, loads, cons, h1, h2, h3, h4, rfl⟩
    simp only [generate_uboot_script, h1, h2, h3, h4]

/-- With no qualifying entry after index 0 of `xen.colors`, no line of the
generated script is an `fdt set <path> llc-colors ...` command. -/
theorem cc_generate {cfg : Config} {fs : String → Option Nat} {dir : String} {ls : List String}
    (hsel : domColorSel (cfg.xen.colors.getD []) = none)
    (h : generate_uboot_script cfg fs dir = some ls) :
    ∀ l ∈ ls, colorCmdB l = false := by
  obtain ⟨xa, da, loads, cons, _, _, hld, hcn, rfl⟩ := generate_some_iff.mp h
  intro l hl
  rcases List.mem_append.mp hl with hl | hl
  · rcases List.mem_append.mp hl with hl | hl
    · rcases List.mem_append.mp hl with hl | hl
      · rcases List.mem_append.mp hl with hl | hl
        · rcases List.mem_append.mp hl with hl | hl
          · obtain ⟨f, rfl⟩ := mem_optFat hl
            exact cc_fatline _ _ _ _
          · obtain ⟨f, rfl⟩ := mem_optFat hl
            exact cc_fatline _ _ _ _
        · exact cc_loadPhase hld l hl
      · exact cc_prepLines _ _ l hl
    · exact cc_constructionPhase hsel hcn l hl
  · simp only [List.mem_cons, List.not_mem_nil, or_false] at hl
    rcases hl with rfl | rfl
    · exact cc_print
    · exact cc_booti _ _

theorem constructionPhase_mem {fs : String → Option Nat} {dir : String} {colors : List String}
    {doms : List (String × DomainCfg)} :
    ∀ {ps : List (Nat × String)} {out : List String},
      constructionPhase fs dir colors doms ps = some out →
      ∀ {i : Nat} {n : String} {d : DomainCfg}, (i, n) ∈ ps → lookupDomain doms n = some d →
        ∃ dls, constructDomain fs dir colors i d = some dls ∧ ∀ l ∈ dls, l ∈ out := by
  intro ps
  induction ps with
  | nil =>
    intro out h i n d hmem
    simp at hmem
  | cons p rest ih =>
    obtain ⟨j, m⟩ := p
    intro out h i n d hmem hd
    rw [constructionPhase] at h
    rcases List.mem_cons.mp hmem with heq | hmem'
    · rw [Prod.mk.injEq] at heq
      obtain ⟨rfl, rfl⟩ := heq
      simp only [hd] at h
      rcases hcd : constructDomain fs dir colors i d with _ | a
      · simp only [hcd] at h; cases h
      simp only [hcd] at h
      rcases hrest : constructionPhase fs dir colors doms rest with _ | b
      · simp only [hrest] at h; cases h
      simp only [hrest, Option.some.injEq] at h
      subst h
      exact ⟨a, rfl, fun l hl => List.mem_append_left _ hl⟩
    · rcases hlk : lookupDomain doms m with _ | d'
      · simp only [hlk] at h
        exact ih h hmem' hd
      · simp only [hlk] at h
        rcases hcd : constructDomain fs dir colors j d' with _ | a
        · simp only [hcd] at h; cases h
        simp only [hcd] at h
        rcases hrest : constructionPhase fs dir colors doms rest with _ | b
        · simp only [hrest] at h; cases h
        simp only [hrest, Option.some.injEq] at h
        subst h
        obtain ⟨dls, hdls, hsub⟩ := ih hrest hmem' hd
        exact ⟨dls, hdls, fun l hl => List.mem_append_right _ (hsub l hl)⟩

theorem constructDomain_some_iff {fs : String → Option Nat} {dir : String} {colors : List String}
    {i : Nat} {d : DomainCfg} {dls : List String} :
    constructDomain fs dir colors i d = some dls ↔
    ∃ mem mb ka dta ra,
      parse_address_or_size (d.params.memory.getD (.str "64MiB")) = some mem ∧
      pyIntTrueDiv mem 1024 = some mb ∧
      parse_address_or_size (d.kernel.addr.getD (.str "0x03000000")) = some ka ∧
      parse_address_or_size (d.dt.addr.getD (.str "0x04000000")) = some dta ∧
      parse_address_or_size (d.ramdisk.addr.getD (.str "0x05000000")) = some ra ∧
      dls = domainLines fs dir colors i d mb ka dta ra := by
  constructor
  · intro h
    rw [constructDomain] at h
    rcases h1 : parse_address_or_size (d.params.memory.getD (.str "64MiB")) with _ | mem
    · simp only [h1] at h; cases h
    simp only [h1] at h
    rcases h2 : pyIntTrueDiv mem 1024 with _ | mb
    · simp only [h2] at h; cases h
    simp only [h2] at h
    rcases h3 : parse_address_or_size (d.kernel.addr.getD (.str "0x03000000")) with _ | ka
    · simp only [h3] at h; cases h
    simp only [h3] at h
    rcases h4 : parse_address_or_size (d.dt.addr.getD (.str "0x04000000")) with _ | dta
    · simp only [h4] at h; cases h
    simp only [h4] at h
    rcases h5 : parse_address_or_size (d.ramdisk.addr.getD (.str "0x05000000")) with _ | ra
    · simp only [h5] at h; cases h
    simp only [h5, Option.some.injEq] at h
    refine ⟨mem, mb, ka, dta, ra, ?_, ?_, ?_, ?_, ?_, h.symm⟩ <;> first | rfl | assumption
  · rintro ⟨mem, mb, ka, dta, ra, h1, h2, h3, h4, h5, rfl⟩
    simp only [constructDomain, h1, h2, h3, h4, h5]

theorem mem_dl_memory {fs : String → Option Nat} {dir : String} {colors : List String}
    {i : Nat} {d : DomainCfg} {mb ka dta ra : Int} :
    ("fdt set " ++ ("/chosen/domU" ++ natDecStr i) ++ " memory <0x0 0x" ++ intHexStr mb ++ ">") ∈
      domainLines fs dir colors i d mb ka dta ra := by
  simp [domainLines]

theorem mem_dl_kreg {fs : String → Option Nat} {dir : String} {colors : List String}
    {i : Nat} {d : DomainCfg} {mb ka dta ra : Int} :
    ("fdt set " ++ ("/chosen/domU" ++ natDecStr i) ++ "/module@" ++ hex8str ka ++ " reg <" ++
      hex8str ka ++ " 0x" ++
      natHexStr (match fileOpt d.kernel.file with
                 | some _ => (get_file_size fs dir d.kernel.file).1
                 | none => 0x100000) ++ ">") ∈
      domainLines fs dir colors i d mb ka dta ra := by
  simp [domainLines]

theorem mem_dl_kmknode {fs : String → Option Nat} {dir : String} {colors : List String}
    {i : Nat} {d : DomainCfg} {mb ka dta ra : Int} :
    ("fdt mknode " ++ ("/chosen/domU" ++ natDecStr i) ++ " module@" ++ hex8str ka) ∈
      domainLines fs dir colors i d mb ka dta ra := by
  simp [domainLines]

theorem mem_dl_kcompat {fs : String → Option Nat} {dir : String} {colors : List String}
    {i : Nat} {d : DomainCfg} {mb ka dta ra : Int} :
    ("fdt set " ++ ("/chosen/domU" ++ natDecStr i) ++ "/module@" ++ hex8str ka ++
      " compatible \"multiboot,kernel\" \"multiboot,module\"") ∈
      domainLines fs dir colors i d mb ka dta ra := by
  simp [domainLines]

theorem mem_dl_color {fs : String → Option Nat} {dir : String} {colors : List String}
    {i : Nat} {d : DomainCfg} {mb ka dta ra : Int} {c : String}
    (hsel : domColorSel colors = some c) :
    ("fdt set " ++ ("/chosen/domU" ++ natDecStr i) ++ " llc-colors \"" ++ c ++ "\"") ∈
      domainLines fs dir colors i d mb ka dta ra := by
  simp [domainLines, hsel]

theorem mem_dl_dtreg {fs : String → Option Nat} {dir : String} {colors : List String}
    {i : Nat} {d : DomainCfg} {mb ka dta ra : Int} {f : String}
    (hdt : fileOpt d.dt.file = some f) :
    ("fdt set " ++ ("/chosen/domU" ++ natDecStr i) ++ "/module@" ++ hex8str dta ++ " reg <" ++
      hex8str dta ++ " " ++ natDecStr (get_file_size fs dir d.dt.file).1 ++ ">") ∈
      domainLines fs dir colors i d mb ka dta ra := by
  simp [domainLines, hdt]

theorem mem_dl_ramreg {fs : String → Option Nat} {dir : String} {colors : List String}
    {i : Nat} {d : DomainCfg} {mb ka dta ra : Int} {f : String}
    (hrd : fileOpt d.ramdisk.file = some f) :
    ("fdt set " ++ ("/chosen/domU" ++ natDecStr i) ++ "/module@" ++ hex8str ra ++ " reg <" ++
      hex8str ra ++ " 0x" ++ natHexStr (get_file_size fs dir d.ramdisk.file).1 ++ ">") ∈
      domainLines fs dir colors i d mb ka dta ra := by
  simp [domainLines, hrd]

/-- Extract `i` from a domain-node creation line `fdt mknode /chosen domU<i>`;
`none` for every other line shape. -/
def ordOf (l : String) : Option Nat :=
  let ts := splitSp l.data
  if ts.length = 4 ∧ ts.get? 0 = some "fdt".data ∧ ts.get? 1 = some "mknode".data ∧
     ts.get? 2 = some "/chosen".data then
    match ts.get? 3 with
    | some ('d' :: 'o' :: 'm' :: 'U' :: ds) => digitsVal 10 ds
    | _ => none
  else none

theorem oo_not_fdt (t0 : String) (h0 : noSp t0) (hne : t0.data ≠ "fdt".data)
    (l : String) (R : List Char) (hl : l.data = t0.data ++ ' ' :: R) : ordOf l = none := by
  simp only [ordOf, hl, splitSp_token_append h0]
  simp [List.get?, hne]

theorem oo_fdt_not_mknode (t1 : String) (h1 : noSp t1) (hne : t1.data ≠ "mknode".data)
    (l : String) (R : List Char)
    (hl : l.data = "fdt".data ++ ' ' :: (t1.data ++ ' ' :: R)) : ordOf l = none := by
  simp only [ordOf, hl,
    splitSp_token_append (@noSp_lit "fdt" (by decide)),
    splitSp_token_append h1]
  simp [List.get?, hne]

theorem oo_set_line (P S : String) (l : String)
    (hl : l = "fdt set " ++ P ++ S) : ordOf l = none := by
  subst hl
  apply oo_fdt_not_mknode "set" (noSp_lit (by decide)) (by decide) _ ((P ++ S).data)
  simp only [String.data_append, List.append_assoc]
  rfl

theorem oo_mknode_dom_line (i : Nat) :
    ordOf ("fdt mknode /chosen domU" ++ natDecStr i) = some i := by
  have hd : ("fdt mknode /chosen domU" ++ natDecStr i).data =
      "fdt".data ++ ' ' :: ("mknode".data ++ ' ' :: ("/chosen".data ++ ' ' ::
        ("domU".data ++ baseChars 10 i))) := by
    simp only [String.data_append, List.append_assoc]
    rfl
  have hns : ∀ c ∈ "domU".data ++ baseChars 10 i, c ≠ ' ' := by
    intro c hc
    rcases List.mem_append.mp hc with hc | hc
    · fin_cases hc <;> decide
    · exact noSp_baseChars (by omega) (by omega) c hc
  simp only [ordOf, hd,
    splitSp_token_append (@noSp_lit "fdt" (by decide)),
    splitSp_token_append (@noSp_lit "mknode" (by decide)),
    splitSp_token_append (@noSp_lit "/chosen" (by decide)),
    splitSp_no_space hns]
  rw [if_pos (by simp [List.get?])]
  rw [show ("domU".data ++ baseChars 10 i) = 'd' :: 'o' :: 'm' :: 'U' :: baseChars 10 i from rfl]
  simp only [List.get?]
  exact digitsVal_baseChars 10 (by omega) (by omega) i

theorem oo_mknode_mod (i : Nat) (A : String) (hA : noSp A) :
    ordOf ("fdt mknode " ++ ("/chosen/domU" ++ natDecStr i) ++ " module@" ++ A) = none := by
  have hd : ("fdt mknode " ++ ("/chosen/domU" ++ natDecStr i) ++ " module@" ++ A).data =
      "fdt".data ++ ' ' :: ("mknode".data ++ ' ' :: (("/chosen/domU" ++ natDecStr i).data ++ ' ' ::
        ("module@".data ++ A.data))) := by
    simp only [String.data_append, List.append_assoc]
    rfl
  have hns : ∀ c ∈ "module@".data ++ A.data, c ≠ ' ' := by
    intro c hc
    rcases List.mem_append.mp hc with hc | hc
    · fin_cases hc <;> decide
    · exact hA c hc
  simp only [ordOf, hd,
    splitSp_token_append (@noSp_lit "fdt" (by decide)),
    splitSp_token_append (@noSp_lit "mknode" (by decide)),
    splitSp_token_append (noSp_domPath i),
    splitSp_no_space hns]
  rw [if_neg]
  intro hcond
  have h2 := hcond.2.2.2
  simp only [List.get?, Option.some.injEq] at h2
  have hlen := congrArg List.length h2
  rw [String.data_append, List.length_append] at hlen
  have hnn := baseChars_ne_nil 10 i (by omega)
  have : 0 < (baseChars 10 i).length := List.length_pos.mpr hnn
  have h12 : ("/chosen/domU".data).length = 12 := by decide
  have h7 : ("/chosen".data).length = 7 := by decide
  rw [h12] at hlen
  rw [h7] at hlen
  omega

theorem oo_fatline (mt addr f : String) (mn : Int) : ordOf (fatline mt mn addr f) = none := by
  apply oo_not_fdt "fatload" (noSp_lit (by decide)) (by decide) _
    ((mt ++ " " ++ intDecStr mn ++ " " ++ addr ++ " " ++ f).data)
  rw [fatline]
  simp only [String.data_append, List.append_assoc]
  rfl

theorem oo_fdt_addr (A : String) : ordOf ("fdt addr " ++ A) = none := by
  apply oo_fdt_not_mknode "addr" (noSp_lit (by decide)) (by decide) _ A.data
  simp only [String.data_append, List.append_assoc]
  rfl

theorem oo_booti (A B : String) : ordOf ("booti " ++ A ++ " - " ++ B) = none := by
  apply oo_not_fdt "booti" (noSp_lit (by decide)) (by decide) _ ((A ++ " - " ++ B).data)
  simp only [String.data_append, List.append_assoc]
  rfl

theorem oo_resize : ordOf "fdt resize 2048" = none := by decide

theorem oo_blank : ordOf "" = none := by decide

theorem oo_print : ordOf "fdt print /chosen" = none := by decide

theorem oo_set2 (P S : String) : ordOf ("fdt set " ++ P ++ S) = none := by
  apply oo_fdt_not_mknode "set" (noSp_lit (by decide)) (by decide) _ ((P ++ S).data)
  simp only [String.data_append, List.append_assoc]
  rfl

theorem oo_set4 (P S T U : String) : ordOf ("fdt set " ++ P ++ S ++ T ++ U) = none := by
  apply oo_fdt_not_mknode "set" (noSp_lit (by decide)) (by decide) _ ((P ++ S ++ T ++ U).data)
  simp only [String.data_append, List.append_assoc]
  rfl

theorem oo_set6 (P S T U V W : String) :
    ordOf ("fdt set " ++ P ++ S ++ T ++ U ++ V ++ W) = none := by
  apply oo_fdt_not_mknode "set" (noSp_lit (by decide)) (by decide) _
    ((P ++ S ++ T ++ U ++ V ++ W).data)
  simp only [String.data_append, List.append_assoc]
  rfl

theorem oo_set8 (P S T U V W X Y : String) :
    ordOf ("fdt set " ++ P ++ S ++ T ++ U ++ V ++ W ++ X ++ Y) = none := by
  apply oo_fdt_not_mknode "set" (noSp_lit (by decide)) (by decide) _
    ((P ++ S ++ T ++ U ++ V ++ W ++ X ++ Y).data)
  simp only [String.data_append, List.append_assoc]
  rfl

theorem oo_rootargs (V : String) :
    ordOf ("fdt set /chosen xen,xen-bootargs \"" ++ V ++ "\"") = none := by
  apply oo_fdt_not_mknode "set" (noSp_lit (by decide)) (by decide) _
    (("/chosen xen,xen-bootargs \"" ++ V ++ "\"").data)
  simp only [String.data_append, List.append_assoc]
  rfl

theorem oo_domainLines {fs : String → Option Nat} {dir : String} {colors : List String}
    {i : Nat} {d : DomainCfg} {mb ka dta ra : Int} :
    (domainLines fs dir colors i d mb ka dta ra).filterMap ordOf = [i] := by
  simp only [domainLines]
  rw [List.filterMap_append, List.filterMap_append, List.filterMap_append,
    List.filterMap_append, List.filterMap_append, List.filterMap_append,
    List.filterMap_append]
  have b1 : List.filterMap ordOf
      ["fdt mknode /chosen domU" ++ natDecStr i,
       "fdt set " ++ ("/chosen/domU" ++ natDecStr i) ++ " compatible \"xen,domain\"",
       "fdt set " ++ ("/chosen/domU" ++ natDecStr i) ++ " cpus <0x" ++
         intHexStr (d.params.cpus.getD 1) ++ ">",
       "fdt set " ++ ("/chosen/domU" ++ natDecStr i) ++ " \\#address-cells <0x1>",
       "fdt set " ++ ("/chosen/domU" ++ natDecStr i) ++ " \\#size-cells <0x1>",
       "fdt set " ++ ("/chosen/domU" ++ natDecStr i) ++ " memory <0x0 0x" ++ intHexStr mb ++ ">",
       ""] = [i] := by
    rw [List.filterMap_cons_some (oo_mknode_dom_line i),
      List.filterMap_cons_none (oo_set2 _ _),
      List.filterMap_cons_none (oo_set4 _ _ _ _),
      List.filterMap_cons_none (oo_set2 _ _),
      List.filterMap_cons_none (oo_set2 _ _),
      List.filterMap_cons_none (oo_set4 _ _ _ _),
      List.filterMap_cons_none oo_blank,
      List.filterMap_nil]
  have b2 : List.filterMap ordOf
      (if d.params.vpl011 then ["fdt set " ++ ("/chosen/domU" ++ natDecStr i) ++ " vpl011"]
       else []) = [] := by
    split
    · rw [List.filterMap_cons_none (oo_set2 _ _), List.filterMap_nil]
    · rfl
  have b3 : List.filterMap ordOf
      ["fdt mknode " ++ ("/chosen/domU" ++ natDecStr i) ++ " module@" ++ hex8str ka] = [] := by
    rw [List.filterMap_cons_none (oo_mknode_mod i _ (noSp_hex8str ka)), List.filterMap_nil]
  have b4 : List.filterMap ordOf
      (match domColorSel colors with
       | some c => ["fdt set " ++ ("/chosen/domU" ++ natDecStr i) ++ " llc-colors \"" ++ c ++ "\""]
       | none => []) = [] := by
    rcases domColorSel colors with _ | c
    · rfl
    · rw [List.filterMap_cons_none (oo_set4 _ _ _ _), List.filterMap_nil]
  have b5 : List.filterMap ordOf
      ["fdt set " ++ ("/chosen/domU" ++ natDecStr i) ++ "/module@" ++ hex8str ka ++
         " compatible \"multiboot,kernel\" \"multiboot,module\"",
       "fdt set " ++ ("/chosen/domU" ++ natDecStr i) ++ "/module@" ++ hex8str ka ++ " reg <" ++
         hex8str ka ++ " 0x" ++
         natHexStr (match fileOpt d.kernel.file with
                    | some _ => (get_file_size fs dir d.kernel.file).1
                    | none => 0x100000) ++ ">",
       ""] = [] := by
    rw [List.filterMap_cons_none (oo_set4 _ _ _ _),
      List.filterMap_cons_none (oo_set8 _ _ _ _ _ _ _ _),
      List.filterMap_cons_none oo_blank, List.filterMap_nil]
  have b6 : List.filterMap ordOf
      (if d.kernel.bootargs = "" then []
       else ["fdt set " ++ ("/chosen/domU" ++ natDecStr i) ++ "/module@" ++ hex8str ka ++
              " bootargs \"" ++ d.kernel.bootargs ++ "\"", ""]) = [] := by
    split
    · rfl
    · rw [List.filterMap_cons_none (oo_set6 _ _ _ _ _ _),
        List.filterMap_cons_none oo_blank, List.filterMap_nil]
  have b7 : List.filterMap ordOf
      (match fileOpt d.dt.file with
       | some _ =>
         ["fdt mknode " ++ ("/chosen/domU" ++ natDecStr i) ++ " module@" ++ hex8str dta,
          "fdt set " ++ ("/chosen/domU" ++ natDecStr i) ++ "/module@" ++ hex8str dta ++
            " compatible \"multiboot,device-tree\" \"multiboot,module\"",
          "fdt set " ++ ("/chosen/domU" ++ natDecStr i) ++ "/module@" ++ hex8str dta ++ " reg <" ++
            hex8str dta ++ " " ++ natDecStr (get_file_size fs dir d.dt.file).1 ++ ">",
          "", ""]
       | none => []) = [] := by
    rcases fileOpt d.dt.file with _ | f
    · rfl
    · rw [List.filterMap_cons_none (oo_mknode_mod i _ (noSp_hex8str dta)),
        List.filterMap_cons_none (oo_set4 _ _ _ _),
        List.filterMap_cons_none (oo_set8 _ _ _ _ _ _ _ _),
        List.filterMap_cons_none oo_blank,
        List.filterMap_cons_none oo_blank, List.filterMap_nil]
  have b8 : List.filterMap ordOf
      (match fileOpt d.ramdisk.file with
       | some _ =>
         ["fdt mknode " ++ ("/chosen/domU" ++ natDecStr i) ++ " module@" ++ hex8str ra,
          "fdt set " ++ ("/chosen/domU" ++ natDecStr i) ++ "/module@" ++ hex8str ra ++
            " compatible \"multiboot,ramdisk\" \"multiboot,module\"",
          "fdt set " ++ ("/chosen/domU" ++ natDecStr i) ++ "/module@" ++ hex8str ra ++ " reg <" ++
            hex8str ra ++ " 0x" ++ natHexStr (get_file_size fs dir d.ramdisk.file).1 ++ ">",
          ""]
       | none => []) = [] := by
    rcases fileOpt d.ramdisk.file with _ | f
    · rfl
    · rw [List.filterMap_cons_none (oo_mknode_mod i _ (noSp_hex8str ra)),
        List.filterMap_cons_none (oo_set4 _ _ _ _),
        List.filterMap_cons_none (oo_set8 _ _ _ _ _ _ _ _),
        List.filterMap_cons_none oo_blank, List.filterMap_nil]
  rw [b1, b2, b3, b4, b5, b6, b7, b8]
  simp

theorem oo_loadDomain {mt : String} {mn : Int} {d : DomainCfg} {lls : List String}
    (h : loadDomainLines mt mn d = some lls) : ∀ l ∈ lls, ordOf l = none := by
  rw [loadDomainLines] at h
  split at h
  · cases h
  · split at h
    · cases h
    · split at h
      · cases h
      · injection h with h
        subst h
        intro l hl
        rcases List.mem_append.mp hl with hl | hl
        · rcases List.mem_append.mp hl with hl | hl
          · obtain ⟨f, rfl⟩ := mem_optFat hl
            exact oo_fatline _ _ _ _
          · obtain ⟨f, rfl⟩ := mem_optFat hl
            exact oo_fatline _ _ _ _
        · obtain ⟨f, rfl⟩ := mem_optFat hl
          exact oo_fatline _ _ _ _

theorem oo_loadPhase {mt : String} {mn : Int} {doms : List (String × DomainCfg)} :
    ∀ {bl : List String} {loads : List String}, loadPhase mt mn doms bl = some loads →
      ∀ l ∈ loads, ordOf l = none := by
  intro bl
  induction bl with
  | nil =>
    intro loads h
    rw [loadPhase] at h
    injection h with h
    subst h
    intro l hl
    simp at hl
  | cons n rest ih =>
    intro loads h
    rw [loadPhase] at h
    split at h
    · exact ih h
    · split at h
      · cases h
      · split at h
        · cases h
        · injection h with h
          subst h
          intro l hl
          rcases List.mem_append.mp hl with hl | hl
          · exact oo_loadDomain (by assumption) l hl
          · exact ih (by assumption) l hl

theorem oo_prepLines (xen : XenCfg) (A : String) : ∀ l ∈ prepLines xen A, ordOf l = none := by
  intro l hl
  rw [prepLines] at hl
  rcases List.mem_append.mp hl with hl | hl
  · rcases List.mem_append.mp hl with hl | hl
    · simp only [List.mem_cons, List.not_mem_nil, or_false] at hl
      rcases hl with rfl | rfl | rfl
      · exact oo_fdt_addr A
      · exact oo_resize
      · exact oo_blank
    · revert hl
      split
      · intro hl; simp at hl
      · intro hl
        rw [List.mem_singleton] at hl
        subst hl
        exact oo_rootargs _
  · simp only [List.mem_cons, List.not_mem_nil, or_false] at hl
    rcases hl with rfl | rfl
    · exact oo_blank
    · exact oo_blank

theorem oo_constructionPhase {fs : String → Option Nat} {dir : String} {colors : List String}
    {doms : List (String × DomainCfg)} :
    ∀ {ps : List (Nat × String)} {cons : List String},
      constructionPhase fs dir colors doms ps = some cons →
      cons.filterMap ordOf =
        ((ps.filter (fun p => (lookupDomain doms p.2).isSome)).map Prod.fst) := by
  intro ps
  induction ps with
  | nil =>
    intro cons h
    rw [constructionPhase] at h
    injection h with h
    subst h
    rfl
  | cons p rest ih =>
    obtain ⟨j, m⟩ := p
    intro cons h
    rw [constructionPhase] at h
    rcases hlk : lookupDomain doms m with _ | d'
    · simp only [hlk] at h
      rw [List.filter_cons_of_neg (by simp [hlk])]
      exact ih h
    · simp only [hlk] at h
      rcases hcd : constructDomain fs dir colors j d' with _ | a
      · simp only [hcd] at h; cases h
      simp only [hcd] at h
      rcases hrest : constructionPhase fs dir colors doms rest with _ | b
      · simp only [hrest] at h; cases h
      simp only [hrest, Option.some.injEq] at h
      subst h
      obtain ⟨mem, mb, ka, dta, ra, _, _, _, _, _, rfl⟩ := constructDomain_some_iff.mp hcd
      rw [List.filterMap_append, oo_domainLines, ih hrest,
        List.filter_cons_of_pos (by simp [hlk])]
      rfl

theorem filterMap_eq_nil_of_none {l : List String} {f : String → Option Nat}
    (h : ∀ x ∈ l, f x = none) : l.filterMap f = [] := by
  induction l with
  | nil => rfl
  | cons a r ih =>
    rw [List.filterMap_cons_none (h a (by simp))]
    exact ih (fun x hx => h x (by simp [hx]))

/-- The ordinals of the domain-node creation lines of a generated script are
exactly the 1-based positions, in the full `bootonly` list, of the names that
are keys of `domains`. -/
theorem ordinals_generate {cfg : Config} {fs : String → Option Nat} {dir : String}
    {ls : List String} (h : generate_uboot_script cfg fs dir = some ls) :
    ls.filterMap ordOf =
      (((enum1 1 (bootEff cfg)).filter
        (fun p => (lookupDomain cfg.domains p.2).isSome)).map Prod.fst) := by
  obtain ⟨xa, da, loads, cons, _, _, hld, hcn, rfl⟩ := generate_some_iff.mp h
  rw [List.filterMap_append, List.filterMap_append, List.filterMap_append,
    List.filterMap_append, List.filterMap_append]
  rw [filterMap_eq_nil_of_none (fun x hx => by
        obtain ⟨f, rfl⟩ := mem_optFat hx; exact oo_fatline _ _ _ _),
    filterMap_eq_nil_of_none (fun x hx => by
        obtain ⟨f, rfl⟩ := mem_optFat hx; exact oo_fatline _ _ _ _),
    filterMap_eq_nil_of_none (oo_loadPhase hld),
    filterMap_eq_nil_of_none (oo_prepLines _ _),
    oo_constructionPhase hcn]
  rw [List.filterMap_cons_none oo_print, List.filterMap_cons_none (oo_booti _ _),
    List.filterMap_nil]
  simp

theorem enum1_map_fst {α : Type} : ∀ (k : Nat) (l : List α),
    (enum1 k l).map Prod.fst = List.range' k l.length := by
  intro k l
  induction l generalizing k with
  | nil => rfl
  | cons a rest ih => simp [enum1, List.range'_succ, ih]

theorem enum1_mem_of_mem {α : Type} {n : α} : ∀ {l : List α} (k : Nat), n ∈ l →
    ∃ i, (i, n) ∈ enum1 k l := by
  intro l
  induction l with
  | nil => intro k h; simp at h
  | cons a rest ih =>
    intro k h
    rcases List.mem_cons.mp h with rfl | h
    · exact ⟨k, by simp [enum1]⟩
    · obtain ⟨i, hi⟩ := ih (k + 1) h
      exact ⟨i, by simp [enum1, hi]⟩

theorem ordinals_pairwise {cfg : Config} {fs : String → Option Nat} {dir : String}
    {ls : List String} (h : generate_uboot_script cfg fs dir = some ls) :
    List.Pairwise (· < ·) (ls.filterMap ordOf) := by
  rw [ordinals_generate h]
  have hsub : (((enum1 1 (bootEff cfg)).filter
      (fun p => (lookupDomain cfg.domains p.2).isSome)).map Prod.fst).Sublist
      ((enum1 1 (bootEff cfg)).map Prod.fst) :=
    List.Sublist.map _ (List.filter_sublist _)
  rw [enum1_map_fst] at hsub
  exact List.Pairwise.sublist hsub (List.pairwise_lt_range' 1 _)

theorem isPyWs_digitChar {d : Nat} (h16 : d < 16) : isPyWs (digitChar d) = false := by
  interval_cases d <;> decide

/-- Parsing the `format_hex` rendering of a nonnegative integer recovers it. -/
theorem parse_hex8str {v : Int} (hv : 0 ≤ v) :
    parse_address_or_size (.str (hex8str v)) = some v := by
  have hneg : ¬ v < 0 := by omega
  rw [parse_address_or_size, hex8str, if_neg hneg]
  have hdata : ("0x" ++ String.mk (padZeros 8 (baseChars 16 v.toNat))).data =
      '0' :: 'x' :: (List.replicate (8 - (baseChars 16 v.toNat).length) '0' ++
        baseChars 16 v.toNat) := by
    rw [String.data_append, mk_data, padZeros]
    rfl
  rw [hdata]
  have hnws : ∀ c ∈ '0' :: 'x' :: (List.replicate (8 - (baseChars 16 v.toNat).length) '0' ++
      baseChars 16 v.toNat), isPyWs c = false := by
    intro c hc
    rcases List.mem_cons.mp hc with rfl | hc
    · decide
    rcases List.mem_cons.mp hc with rfl | hc
    · decide
    rcases List.mem_append.mp hc with hc | hc
    · rw [List.eq_of_mem_replicate hc]; decide
    · obtain ⟨d, hd, rfl⟩ := baseChars_digits 16 v.toNat (by omega) (by omega) c hc
      exact isPyWs_digitChar hd
  rw [pyStrip_of_no_ws hnws]
  rw [if_pos (by simp [startsList])]
  rw [pyIntHex]
  rw [if_pos (Or.inl rfl)]
  have hbody : hexBody (List.replicate (8 - (baseChars 16 v.toNat).length) '0' ++
      baseChars 16 v.toNat) = some v.toNat := by
    rcases hk : 8 - (baseChars 16 v.toNat).length with _ | k
    · obtain ⟨c, r, hcr⟩ : ∃ c r, baseChars 16 v.toNat = c :: r := by
        cases hx : baseChars 16 v.toNat with
        | nil => exact absurd hx (baseChars_ne_nil 16 v.toNat (by omega))
        | cons c r => exact ⟨c, r, rfl⟩
      rw [List.replicate_zero, List.nil_append, hcr, hexBody]
      obtain ⟨d, hd, rfl⟩ := baseChars_digits 16 v.toNat (by omega) (by omega) c (by rw [hcr]; simp)
      rw [if_neg (digitChar_not_special hd).2.2.2.1]
      have := digitsVal_pad 16 (by omega) (by omega) 0 v.toNat
      rw [List.replicate_zero, List.nil_append, hcr] at this
      exact this
    · rw [List.replicate_succ, List.cons_append, hexBody,
        if_neg (by decide : ¬ ('0' = '_'))]
      have := digitsVal_pad 16 (by omega) (by omega) (k + 1) v.toNat
      rw [List.replicate_succ, List.cons_append] at this
      exact this
  rw [hbody, Option.map_some']
  congr 1
  exact Int.toNat_of_nonneg hv

/-- Every address-or-size expression whose parse the generator forces: the two
top-level addresses and, for every name of the effective boot list that is a
key of `domains`, the domain's three module addresses and its memory size. -/
def consumedExprs (cfg : Config) : List AddrExpr :=
  [cfg.xen.addr.getD (.str "0x01000000"), cfg.dt.addr.getD (.str "0x02000000")] ++
  (bootEff cfg).flatMap (fun n =>
    match lookupDomain cfg.domains n with
    | some d => [d.kernel.addr.getD (.str "0x03000000"), d.dt.addr.getD (.str "0x04000000"),
                 d.ramdisk.addr.getD (.str "0x05000000"), d.params.memory.getD (.str "64MiB")]
    | none => [])

theorem generate_parses_consumed {cfg : Config} {fs : String → Option Nat} {dir : String}
    {ls : List String} (h : generate_uboot_script cfg fs dir = some ls) :
    ∀ e ∈ consumedExprs cfg, (parse_address_or_size e).isSome := by
  obtain ⟨xa, da, loads, cons, hxa, hda, hld, hcn, rfl⟩ := generate_some_iff.mp h
  intro e he
  rw [consumedExprs] at he
  rcases List.mem_append.mp he with he | he
  · simp only [List.mem_cons, List.not_mem_nil, or_false] at he
    rcases he with rfl | rfl
    · simp [hxa]
    · simp [hda]
  · rw [List.mem_flatMap] at he
    obtain ⟨n, hn, he⟩ := he
    rcases hlk : lookupDomain cfg.domains n with _ | d
    · rw [hlk] at he; simp at he
    rw [hlk] at he
    obtain ⟨i, hi⟩ := enum1_mem_of_mem 1 hn
    obtain ⟨dls, hdls, _⟩ := constructionPhase_mem hcn hi hlk
    obtain ⟨mem, mb, ka, dta, ra, h1, h2, h3, h4, h5, _⟩ := constructDomain_some_iff.mp hdls
    simp only [List.mem_cons, List.not_mem_nil, or_false] at he
    rcases he with rfl | rfl | rfl | rfl
    · simp [h3]
    · simp [h4]
    · simp [h5]
    · simp [h1]

/-- Does a token start with `xen-llc-colors=`? -/
def xlcTok (t : List Char) : Bool := startsList "xen-llc-colors=".data t

theorem mem_prep_bootargs (xen : XenCfg) (A : String) (hne : bootargsParts xen ≠ []) :
    ("fdt set /chosen xen,xen-bootargs \"" ++ joinSp (bootargsParts xen) ++ "\"") ∈
      prepLines xen A := by
  rw [prepLines]
  apply List.mem_append_left
  apply List.mem_append_right
  rcases hbp : bootargsParts xen with _ | ⟨p, rest⟩
  · exact absurd hbp hne
  · simp

theorem tokens_joinSp_cons (a r : String) (rest : List String) :
    splitSp (joinSp (a :: r :: rest)).data =
      splitSp a.data ++ splitSp (joinSp (r :: rest)).data := by
  show splitSp (a ++ " " ++ joinSp (r :: rest)).data = _
  rw [String.data_append, String.data_append]
  rw [show (" " : String).data = [' '] from rfl, List.append_assoc, List.singleton_append]
  exact splitSp_append_space _ _

theorem tokens_joinSp_free_single (free w : String) (hw : noSp w) :
    splitSp (joinSp ((if free = "" then [] else [free]) ++ [w])).data =
      (if free = "" then [] else splitSp free.data) ++ [w.data] := by
  by_cases hf : free = ""
  · rw [if_pos hf, if_pos hf, List.nil_append, List.nil_append]
    show splitSp w.data = [w.data]
    exact splitSp_no_space hw
  · rw [if_neg hf, if_neg hf]
    rw [show ([free] ++ [w] : List String) = free :: w :: [] by rfl]
    rw [tokens_joinSp_cons]
    show splitSp free.data ++ splitSp w.data = _
    rw [splitSp_no_space hw]

theorem tokens_joinSp_free_double (free w1 w2 : String) (hw1 : noSp w1) (hw2 : noSp w2) :
    splitSp (joinSp ((if free = "" then [] else [free]) ++ [w1, w2])).data =
      (if free = "" then [] else splitSp free.data) ++ [w1.data, w2.data] := by
  by_cases hf : free = ""
  · rw [if_pos hf, if_pos hf, List.nil_append, List.nil_append]
    rw [show ([w1, w2] : List String) = w1 :: w2 :: [] by rfl, tokens_joinSp_cons]
    show splitSp w1.data ++ splitSp w2.data = _
    rw [splitSp_no_space hw1, splitSp_no_space hw2]
    rfl
  · rw [if_neg hf, if_neg hf]
    rw [show ([free] ++ [w1, w2] : List String) = free :: w1 :: w2 :: [] by rfl,
      tokens_joinSp_cons, tokens_joinSp_cons]
    show splitSp free.data ++ (splitSp w1.data ++ splitSp w2.data) = _
    rw [splitSp_no_space hw1, splitSp_no_space hw2]
    rfl

theorem generate_none_of_malformed {cfg : Config} {fs : String → Option Nat} {dir : String}
    (h : ∃ e ∈ consumedExprs cfg, parse_address_or_size e = none) :
    generate_uboot_script cfg fs dir = none := by
  rcases hg : generate_uboot_script cfg fs dir with _ | ls
  · rfl
  · obtain ⟨e, he, hpe⟩ := h
    have := generate_parses_consumed hg e he
    rw [hpe] at this
    simp at this

/-- The suffix arithmetic, shared between the source parser and the claim
model: parse the stripped prefix as a decimal `float`, multiply by `2 ^ t`,
truncate toward zero. -/
def suffixNum (cs : List Char) (t : Nat) : Option Int :=
  match pyFloatOfChars (pyStrip (cs.take (cs.length - 3))) with
  | none => none
  | some x =>
    match pyfMulPow2 x t with
    | none => none
    | some y => some (pyfTrunc y)

/-- `parse_address_or_size` as the (amended) claim words it: an integer input
is returned unchanged; after trimming surrounding whitespace a `0x`/`0X`
string is parsed as hexadecimal; otherwise the suffixes `KiB`, `MiB`, `GiB`
are checked in that fixed, case-sensitive order, and on a match the prefix is
parsed as a possibly fractional decimal number — rounded to IEEE-754 double
precision — multiplied by 1024, 1024² or 1024³ and truncated toward zero;
otherwise the whole string is parsed as a base-10 integer. -/
def parse_address_or_size_claim (e : AddrExpr) : Option Int :=
  match e with
  | .int n => some n
  | .str s =>
    let cs := pyStrip s.data
    if startsList "0x".data cs || startsList "0X".data cs then
      pyIntHex cs
    else if endsList "KiB".data cs then suffixNum cs 10
    else if endsList "MiB".data cs then suffixNum cs 20
    else if endsList "GiB".data cs then suffixNum cs 30
    else pyIntDec cs

/-- The source parser agrees with the claim's sentence-by-sentence model. -/
theorem parse_claim_eq (e : AddrExpr) :
    parse_address_or_size e = parse_address_or_size_claim e := by
  cases e with
  | int n => rfl
  | str s =>
    rw [parse_address_or_size, parse_address_or_size_claim]
    by_cases hhex : (startsList "0x".data (pyStrip s.data) ||
        startsList "0X".data (pyStrip s.data)) = true
    · rw [if_pos hhex, if_pos hhex]
    · rw [if_neg hhex, if_neg hhex]
      show (match findSuffix sizeSuffixes (pyStrip s.data) with
            | some sm =>
              match pyFloatOfChars
                  (pyStrip ((pyStrip s.data).take ((pyStrip s.data).length - sm.1.data.length))) with
              | none => none
              | some x =>
                match pyfMulPow2 x (log2f sm.2) with
                | none => none
                | some y => some (pyfTrunc y)
            | none => pyIntDec (pyStrip s.data)) = _
      rw [show findSuffix sizeSuffixes (pyStrip s.data) =
          (if endsList "KiB".data (pyStrip s.data) then some ("KiB", 1024)
           else if endsList "MiB".data (pyStrip s.data) then some ("MiB", 1024 * 1024)
           else if endsList "GiB".data (pyStrip s.data) then some ("GiB", 1024 * 1024 * 1024)
           else none) from rfl]
      by_cases h1 : endsList "KiB".data (pyStrip s.data) = true
      · rw [if_pos h1, if_pos h1]; rfl
      · rw [if_neg h1, if_neg h1]
        by_cases h2 : endsList "MiB".data (pyStrip s.data) = true
        · rw [if_pos h2, if_pos h2]; rfl
        · rw [if_neg h2, if_neg h2]
          by_cases h3 : endsList "GiB".data (pyStrip s.data) = true
          · rw [if_pos h3, if_pos h3]; rfl
          · rw [if_neg h3, if_neg h3]

/-! ### Claim theorems -/

def c4cfg : Config :=
  { domains := [("d1", { params := { memory := some (.str "0x8000000000000400") } })] }

def c4L : List String :=
  ["fdt addr 0x02000000", "fdt resize 2048", "", "", "", "fdt mknode /chosen domU1",
   "fdt set /chosen/domU1 compatible \"xen,domain\"", "fdt set /chosen/domU1 cpus <0x1>",
   "fdt set /chosen/domU1 \\#address-cells <0x1>", "fdt set /chosen/domU1 \\#size-cells <0x1>",
   "fdt set /chosen/domU1 memory <0x0 0x20000000000000>", "",
   "fdt mknode /chosen/domU1 module@0x03000000",
   "fdt set /chosen/domU1/module@0x03000000 compatible \"multiboot,kernel\" \"multiboot,module\"",
   "fdt set /chosen/domU1/module@0x03000000 reg <0x03000000 0x100000>", "",
   "fdt print /chosen", "booti 0x01000000 - 0x02000000"]

/-- C4: the claim says the emitted memory value is the configured byte count
integer-divided by 1024 at every magnitude.  The code computes
`int(parse_address_or_size(memory) / 1024)` with float (binary64) division:
at `memory = "0x8000000000000400"` (2^63 + 1024 bytes) the true quotient
2^53 + 1 is rounded to 2^53, so the script carries `0x20000000000000` while
integer division gives `0x20000000000001` — the code deviates from the
specified integer division. -/
theorem c4_float_division :
    generate_uboot_script c4cfg (fun _ => none) "art" = some c4L ∧
    "fdt set /chosen/domU1 memory <0x0 0x20000000000000>" ∈ c4L ∧
    "fdt set /chosen/domU1 memory <0x0 0x20000000000001>" ∉ c4L ∧
    pyIntTrueDiv 0x8000000000000400 1024 = some 0x20000000000000 ∧
    (0x8000000000000400 : Int) / 1024 = 0x20000000000001 := by
  refine ⟨by decide, by decide, by decide, by decide, by decide⟩

/-- C5 (amended): `parse_address_or_size` returns an integer unchanged; after
trimming surrounding whitespace it parses a `0x`/`0X` string as hexadecimal;
otherwise it checks the suffixes KiB, MiB, GiB in that fixed, case-sensitive
order and on a match parses the prefix as a possibly fractional decimal
number rounded to IEEE-754 double precision, multiplies by 1024, 1024² or
1024³ and truncates toward zero; otherwise it parses the whole string as a
base-10 integer. -/
theorem c5_parser_structure (e : AddrExpr) :
    parse_address_or_size e = parse_address_or_size_claim e :=
  parse_claim_eq e

/-- C5 counterexample: with exact rational arithmetic (as the claim's words
read), `"0.99999999999999999KiB"` is 1023.99… bytes and truncates to 1023;
the code first rounds the decimal prefix to the double 1.0 and returns 1024. -/
theorem c5_counterexample :
    parse_address_or_size (.str "0.99999999999999999KiB") = some 1024 ∧
    (99999999999999999 * 1024) / 100000000000000000 = 1023 := by
  refine ⟨by decide, by decide⟩

/-- C6: parsing the hex formatter's output recovers the integer: `format_hex`
renders a nonnegative integer as `0x`-prefixed zero-padded lowercase hex, and
`parse_address_or_size` maps that string back to the same integer; hence for
every valid expression with a nonnegative value, parse→format→parse yields
the same byte count as the first parse. -/
theorem c6_roundtrip :
    (∀ n : Nat, format_hex (.int (n : Int)) = some (hex8str (n : Int)) ∧
      parse_address_or_size (.str (hex8str (n : Int))) = some (n : Int)) ∧
    (∀ (e : AddrExpr) (v : Int), parse_address_or_size e = some v → 0 ≤ v →
      parse_address_or_size (.str (hex8str v)) = some v) := by
  constructor
  · intro n
    exact ⟨rfl, parse_hex8str (Int.ofNat_nonneg n)⟩
  · intro e v _ hv
    exact parse_hex8str hv

/-- C6 witness: the round trip at the concrete value 291. -/
theorem c6_roundtrip_witness :
    parse_address_or_size (.str (hex8str (291 : Int))) = some (291 : Int) :=
  c6_roundtrip.2 (.int 291) 291 rfl (by decide)

/-- C8: `get_file_size` returns `0x100000` for an empty or absent name
without consulting the filesystem oracle (the result is the same for every
`fs`); returns `0x100000` plus a warning on the diagnostic list for a named
file the oracle does not know; and returns exactly the oracle's byte count
for a file that exists.  It always returns — it never aborts generation. -/
theorem c8_file_size :
    (∀ (fs : String → Option Nat) (dir : String),
      get_file_size fs dir none = (0x100000, []) ∧
      get_file_size fs dir (some "") = (0x100000, [])) ∧
    (∀ (fs : String → Option Nat) (dir f : String), f ≠ "" → fs (dir ++ "/" ++ f) = none →
      get_file_size fs dir (some f) =
        (0x100000,
         ["Warning: File " ++ (dir ++ "/" ++ f) ++ " not found, using default size 0x100000"])) ∧
    (∀ (fs : String → Option Nat) (dir f : String) (sz : Nat), f ≠ "" →
      fs (dir ++ "/" ++ f) = some sz → get_file_size fs dir (some f) = (sz, [])) := by
  refine ⟨fun fs dir => ⟨rfl, rfl⟩, ?_, ?_⟩
  · intro fs dir f hf hfs
    rw [get_file_size, if_neg hf]
    simp only [hfs]
  · intro fs dir f sz hf hfs
    rw [get_file_size, if_neg hf]
    simp only [hfs]

/-- C8 witness: the three cases at concrete arguments. -/
theorem c8_file_size_witness :
    get_file_size (fun _ => none) "art" none = (0x100000, []) ∧
    get_file_size (fun _ => none) "art" (some "k.bin") =
      (0x100000,
       ["Warning: File " ++ ("art" ++ "/" ++ "k.bin") ++ " not found, using default size 0x100000"]) ∧
    get_file_size (fun s => if s = "art/k.bin" then some 7 else none) "art" (some "k.bin") =
      (7, []) :=
  ⟨(c8_file_size.1 (fun _ => none) "art").1,
   c8_file_size.2.1 (fun _ => none) "art" "k.bin" (by decide) rfl,
   c8_file_size.2.2 (fun s => if s = "art/k.bin" then some 7 else none) "art" "k.bin" 7
     (by decide) (by decide)⟩

/-- C9: a malformed address-or-size expression anywhere the generator consumes
one (the two top-level addresses, and each selected domain's kernel/dt/ramdisk
addresses and memory size) makes `generate_uboot_script` fail as a whole:
the result is `none` — the exception that `main` catches, reporting on the
diagnostic stream and exiting non-zero — and no script line is produced, so
nothing reaches standard output. -/
theorem c9_atomic_failure (cfg : Config) (fs : String → Option Nat) (dir : String)
    (h : ∃ e ∈ consumedExprs cfg, parse_address_or_size e = none) :
    generate_uboot_script cfg fs dir = none :=
  generate_none_of_malformed h

def c9wcfg : Config := { xen := { addr := some (.str "zzz") } }

/-- C9 witness: a malformed hypervisor address aborts generation. -/
theorem c9_atomic_failure_witness :
    generate_uboot_script c9wcfg (fun _ => none) "art" = none :=
  c9_atomic_failure c9wcfg (fun _ => none) "art"
    ⟨.str "zzz", by decide, by decide⟩

theorem fileOpt_eq_some {X : Option String} {f : String} (h : fileOpt X = some f) :
    X = some f ∧ f ≠ "" := by
  cases X with
  | none => simp [fileOpt] at h
  | some s =>
    rw [fileOpt] at h
    by_cases hs : s = ""
    · rw [if_pos hs] at h; cases h
    · rw [if_neg hs] at h
      injection h with h
      subst h
      exact ⟨rfl, hs⟩

def c1ccfg : Config :=
  { xen := { bootonly := some ["ghost", "d1"] },
    domains := [("d1", { kernel := { file := some "k.bin" },
                         params := { memory := some (.str "64MiB") } })] }

def c1fs : String → Option Nat := fun s => if s = "art/k.bin" then some 0x400 else none

def c1cL : List String :=
  ["fatload mmc 0 0x03000000 k.bin", "fdt addr 0x02000000", "fdt resize 2048", "", "", "",
   "fdt mknode /chosen domU2", "fdt set /chosen/domU2 compatible \"xen,domain\"",
   "fdt set /chosen/domU2 cpus <0x1>", "fdt set /chosen/domU2 \\#address-cells <0x1>",
   "fdt set /chosen/domU2 \\#size-cells <0x1>", "fdt set /chosen/domU2 memory <0x0 0x10000>", "",
   "fdt mknode /chosen/domU2 module@0x03000000",
   "fdt set /chosen/domU2/module@0x03000000 compatible \"multiboot,kernel\" \"multiboot,module\"",
   "fdt set /chosen/domU2/module@0x03000000 reg <0x03000000 0x400>", "",
   "fdt print /chosen", "booti 0x01000000 - 0x02000000"]

/-- C1 counterexample: one selected domain with `memory: "64MiB"`, the default
kernel address and a 0x400-byte kernel file — but `bootonly` lists an unknown
name first, so `enumerate(bootonly, 1)` gives the only emitted domain the
ordinal 2 and neither claimed `domU1` line appears in the script. -/
theorem c1_counterexample :
    generate_uboot_script c1ccfg c1fs "art" = some c1cL ∧
    "fdt set /chosen/domU1/module@0x03000000 reg <0x03000000 0x400>" ∉ c1cL ∧
    "fdt set /chosen/domU1 memory <0x0 0x10000>" ∉ c1cL ∧
    "fdt set /chosen/domU2/module@0x03000000 reg <0x03000000 0x400>" ∈ c1cL ∧
    "fdt set /chosen/domU2 memory <0x0 0x10000>" ∈ c1cL := by
  refine ⟨by decide, by decide, by decide, by decide, by decide⟩

/-- C1 (amended): for every configuration whose effective boot list starts
with a selected domain whose `params.memory` is `"64MiB"`, whose kernel
address parses to the default 0x03000000, and whose kernel file resolves to
0x400 bytes in the artifact directory, the generated script contains the
kernel module line `fdt set /chosen/domU1/module@0x03000000 reg
<0x03000000 0x400>` and the domain memory line
`fdt set /chosen/domU1 memory <0x0 0x10000>`. -/
theorem c1_end_to_end (cfg : Config) (fs : String → Option Nat) (dir : String)
    (n : String) (d : DomainCfg) (f : String) (ls : List String)
    (hhead : (bootEff cfg).head? = some n)
    (hd : lookupDomain cfg.domains n = some d)
    (hmem : d.params.memory = some (.str "64MiB"))
    (hka : parse_address_or_size (d.kernel.addr.getD (.str "0x03000000")) = some 0x03000000)
    (hkf : fileOpt d.kernel.file = some f)
    (hfs : fs (dir ++ "/" ++ f) = some 0x400)
    (hgen : generate_uboot_script cfg fs dir = some ls) :
    "fdt set /chosen/domU1/module@0x03000000 reg <0x03000000 0x400>" ∈ ls ∧
    "fdt set /chosen/domU1 memory <0x0 0x10000>" ∈ ls := by
  obtain ⟨xa, da, loads, cons, hxa, hda, hld, hcn, rfl⟩ := generate_some_iff.mp hgen
  have hi : (1, n) ∈ enum1 1 (bootEff cfg) := by
    cases hbe : bootEff cfg with
    | nil => rw [hbe] at hhead; cases hhead
    | cons a t =>
      rw [hbe] at hhead
      injection hhead with hhead
      subst hhead
      simp [enum1]
  obtain ⟨dls, hdls, hsub⟩ := constructionPhase_mem hcn hi hd
  obtain ⟨mem, mb, ka, dta, ra, h1, h2, h3, h4, h5, rfl⟩ := constructDomain_some_iff.mp hdls
  rw [hmem] at h1
  rw [show ((some (AddrExpr.str "64MiB")).getD (AddrExpr.str "64MiB")) = .str "64MiB" from rfl,
    show parse_address_or_size (.str "64MiB") = some 67108864 by decide] at h1
  injection h1 with h1
  subst h1
  rw [show pyIntTrueDiv 67108864 1024 = some 65536 by decide] at h2
  injection h2 with h2
  subst h2
  rw [hka] at h3
  injection h3 with h3
  subst h3
  obtain ⟨hkfile, hfne⟩ := fileOpt_eq_some hkf
  have hks : (match fileOpt d.kernel.file with
              | some _ => (get_file_size fs dir d.kernel.file).1
              | none => (0x100000 : Nat)) = 0x400 := by
    rw [hkf, hkfile, get_file_size, if_neg hfne]
    simp only [hfs]
  have hmemline := @mem_dl_memory fs dir (cfg.xen.colors.getD []) 1 d 65536 0x03000000 dta ra
  have hkregline := @mem_dl_kreg fs dir (cfg.xen.colors.getD []) 1 d 65536 0x03000000 dta ra
  rw [hks] at hkregline
  constructor
  · have h2ls := hsub _ hkregline
    have heq : "fdt set /chosen/domU1/module@0x03000000 reg <0x03000000 0x400>" =
        "fdt set " ++ ("/chosen/domU" ++ natDecStr 1) ++ "/module@" ++ hex8str 0x03000000 ++
          " reg <" ++ hex8str 0x03000000 ++ " 0x" ++ natHexStr 0x400 ++ ">" := by decide
    rw [heq]
    exact List.mem_append_left _ (List.mem_append_right _ h2ls)
  · have h2ls := hsub _ hmemline
    have heq : "fdt set /chosen/domU1 memory <0x0 0x10000>" =
        "fdt set " ++ ("/chosen/domU" ++ natDecStr 1) ++ " memory <0x0 0x" ++
          intHexStr 65536 ++ ">" := by decide
    rw [heq]
    exact List.mem_append_left _ (List.mem_append_right _ h2ls)

def c1wd : DomainCfg :=
  { kernel := { file := some "k.bin" }, params := { memory := some (.str "64MiB") } }

def c1wcfg : Config := { xen := { bootonly := some ["d1"] }, domains := [("d1", c1wd)] }

def c1wL : List String :=
  ["fatload mmc 0 0x03000000 k.bin", "fdt addr 0x02000000", "fdt resize 2048", "", "", "",
   "fdt mknode /chosen domU1", "fdt set /chosen/domU1 compatible \"xen,domain\"",
   "fdt set /chosen/domU1 cpus <0x1>", "fdt set /chosen/domU1 \\#address-cells <0x1>",
   "fdt set /chosen/domU1 \\#size-cells <0x1>", "fdt set /chosen/domU1 memory <0x0 0x10000>", "",
   "fdt mknode /chosen/domU1 module@0x03000000",
   "fdt set /chosen/domU1/module@0x03000000 compatible \"multiboot,kernel\" \"multiboot,module\"",
   "fdt set /chosen/domU1/module@0x03000000 reg <0x03000000 0x400>", "",
   "fdt print /chosen", "booti 0x01000000 - 0x02000000"]

/-- C1 witness: the end-to-end scenario at a concrete configuration whose
only selected domain heads the boot list. -/
theorem c1_end_to_end_witness :
    "fdt set /chosen/domU1/module@0x03000000 reg <0x03000000 0x400>" ∈ c1wL ∧
    "fdt set /chosen/domU1 memory <0x0 0x10000>" ∈ c1wL :=
  c1_end_to_end c1wcfg c1fs "art" "d1" c1wd "k.bin" c1wL rfl rfl rfl (by decide) rfl
    (by decide) (by decide)

def c3ccfg : Config :=
  { xen := { bootonly := some ["ghost", "d1"] }, domains := [("d1", {})] }

def c3cL : List String :=
  ["fdt addr 0x02000000", "fdt resize 2048", "", "", "", "fdt mknode /chosen domU2",
   "fdt set /chosen/domU2 compatible \"xen,domain\"", "fdt set /chosen/domU2 cpus <0x1>",
   "fdt set /chosen/domU2 \\#address-cells <0x1>", "fdt set /chosen/domU2 \\#size-cells <0x1>",
   "fdt set /chosen/domU2 memory <0x0 0x10000>", "", "fdt mknode /chosen/domU2 module@0x03000000",
   "fdt set /chosen/domU2/module@0x03000000 compatible \"multiboot,kernel\" \"multiboot,module\"",
   "fdt set /chosen/domU2/module@0x03000000 reg <0x03000000 0x100000>", "",
   "fdt print /chosen", "booti 0x01000000 - 0x02000000"]

/-- C3 counterexample: with `bootonly = ["ghost", "d1"]` and only `d1` in
`domains`, the single emitted domain is `domU2`, not `domU1`: ordinals follow
`enumerate` over the unfiltered `bootonly`, so an invalid name leaves a gap
and the first emitted domain need not be `domU1`. -/
theorem c3_counterexample :
    generate_uboot_script c3ccfg (fun _ => none) "art" = some c3cL ∧
    "fdt mknode /chosen domU2" ∈ c3cL ∧
    "fdt mknode /chosen domU1" ∉ c3cL := by
  refine ⟨by decide, by decide, by decide⟩

theorem enum1_snd_mem {α : Type} {a : α} : ∀ {l : List α} {k i : Nat},
    (i, a) ∈ enum1 k l → a ∈ l := by
  intro l
  induction l with
  | nil => intro k i h; simp [enum1] at h
  | cons b rest ih =>
    intro k i h
    rw [enum1, List.mem_cons] at h
    rcases h with h | h
    · rw [Prod.mk.injEq] at h
      simp [h.2]
    · simp [ih h]

/-- C3 (amended): the ordinals of the emitted `domU<i>` nodes are strictly
increasing and follow the effective boot order, but each one is the 1-based
position of its name in the full `bootonly` list: names absent from `domains`
still advance the counter, so gaps appear after them and the first emitted
domain is `domU1` only when no invalid name precedes it.  When every
`bootonly` entry is a key of `domains`, the ordinals are exactly 1, 2, …. -/
theorem c3_ordinals (cfg : Config) (fs : String → Option Nat) (dir : String)
    (ls : List String) (hgen : generate_uboot_script cfg fs dir = some ls) :
    ls.filterMap ordOf =
      (((enum1 1 (bootEff cfg)).filter
        (fun p => (lookupDomain cfg.domains p.2).isSome)).map Prod.fst) ∧
    List.Pairwise (· < ·) (ls.filterMap ordOf) ∧
    ((∀ n ∈ bootEff cfg, (lookupDomain cfg.domains n).isSome) →
      ls.filterMap ordOf = List.range' 1 (bootEff cfg).length) := by
  refine ⟨ordinals_generate hgen, ordinals_pairwise hgen, ?_⟩
  intro hall
  rw [ordinals_generate hgen]
  have hfull : (enum1 1 (bootEff cfg)).filter
      (fun p => (lookupDomain cfg.domains p.2).isSome) = enum1 1 (bootEff cfg) := by
    apply List.filter_eq_self.mpr
    intro p hp
    obtain ⟨i, n⟩ := p
    exact hall n (enum1_snd_mem hp)
  rw [hfull, enum1_map_fst]

def c3wcfg : Config := { domains := [("a", {}), ("b", {})] }

def c3wL : List String :=
  ["fdt addr 0x02000000", "fdt resize 2048", "", "", "", "fdt mknode /chosen domU1",
   "fdt set /chosen/domU1 compatible \"xen,domain\"", "fdt set /chosen/domU1 cpus <0x1>",
   "fdt set /chosen/domU1 \\#address-cells <0x1>", "fdt set /chosen/domU1 \\#size-cells <0x1>",
   "fdt set /chosen/domU1 memory <0x0 0x10000>", "", "fdt mknode /chosen/domU1 module@0x03000000",
   "fdt set /chosen/domU1/module@0x03000000 compatible \"multiboot,kernel\" \"multiboot,module\"",
   "fdt set /chosen/domU1/module@0x03000000 reg <0x03000000 0x100000>", "",
   "fdt mknode /chosen domU2", "fdt set /chosen/domU2 compatible \"xen,domain\"",
   "fdt set /chosen/domU2 cpus <0x1>", "fdt set /chosen/domU2 \\#address-cells <0x1>",
   "fdt set /chosen/domU2 \\#size-cells <0x1>", "fdt set /chosen/domU2 memory <0x0 0x10000>", "",
   "fdt mknode /chosen/domU2 module@0x03000000",
   "fdt set /chosen/domU2/module@0x03000000 compatible \"multiboot,kernel\" \"multiboot,module\"",
   "fdt set /chosen/domU2/module@0x03000000 reg <0x03000000 0x100000>", "",
   "fdt print /chosen", "booti 0x01000000 - 0x02000000"]

/-- C3 witness: the ordinal characterization at a concrete two-domain
configuration. -/
theorem c3_ordinals_witness :
    c3wL.filterMap ordOf =
      (((enum1 1 (bootEff c3wcfg)).filter
        (fun p => (lookupDomain c3wcfg.domains p.2).isSome)).map Prod.fst) ∧
    List.Pairwise (· < ·) (c3wL.filterMap ordOf) ∧
    ((∀ n ∈ bootEff c3wcfg, (lookupDomain c3wcfg.domains n).isSome) →
      c3wL.filterMap ordOf = List.range' 1 (bootEff c3wcfg).length) :=
  c3_ordinals c3wcfg (fun _ => none) "art" c3wL (by decide)

def c2ccfg : Config := { xen := { bootargs := "xen-llc-colors=9", colors := some ["none"] } }

def c2cL : List String :=
  ["fdt addr 0x02000000", "fdt resize 2048", "",
   "fdt set /chosen xen,xen-bootargs \"xen-llc-colors=9 llc-coloring=on\"", "", "",
   "fdt print /chosen", "booti 0x01000000 - 0x02000000"]

/-- C2 counterexample: with `colors = ["none"]` the claim says the root
`xen,xen-bootargs` value contains no `xen-llc-colors=` token, but the free-form
`xen.bootargs` text is prepended verbatim, so a user-supplied
`xen-llc-colors=9` lands in the value as a token. -/
theorem c2_counterexample :
    generate_uboot_script c2ccfg (fun _ => none) "art" = some c2cL ∧
    c2ccfg.xen.colors = some ["none"] ∧
    ("fdt set /chosen xen,xen-bootargs \"xen-llc-colors=9 llc-coloring=on\"") ∈ c2cL ∧
    (splitSp (joinSp (bootargsParts c2ccfg.xen)).data).any xlcTok = true := by
  refine ⟨by decide, rfl, by decide, by decide⟩

/-- C2 (amended): coloring behaviour of the generated script.
(a) If no entry of `xen.colors` after index 0 differs from `"none"`, no line of
the script is an `fdt set <path> llc-colors ...` command.
(b) If such an entry exists, the first one, `c`, is set as `llc-colors "c"` on
every emitted domain node.
(c) With `colors = ["none"]` or `["none", "2-5"]`, the root bootargs value
carries the token `llc-coloring=on`, and — provided the free-form
`xen.bootargs` text contains no token starting with `xen-llc-colors=` — no
token of the value starts with `xen-llc-colors=`.
(d) With `colors = ["0-1", "2-5"]`, the root bootargs value carries the tokens
`llc-coloring=on` and `xen-llc-colors=0-1`. -/
theorem c2_coloring (cfg : Config) (fs : String → Option Nat) (dir : String)
    (ls : List String) (hgen : generate_uboot_script cfg fs dir = some ls) :
    (domColorSel (cfg.xen.colors.getD []) = none → ∀ l ∈ ls, colorCmdB l = false) ∧
    (∀ c, domColorSel (cfg.xen.colors.getD []) = some c →
      ∀ i n d, (i, n) ∈ enum1 1 (bootEff cfg) → lookupDomain cfg.domains n = some d →
        ("fdt set " ++ ("/chosen/domU" ++ natDecStr i) ++ " llc-colors \"" ++ c ++ "\"") ∈ ls) ∧
    ((cfg.xen.colors = some ["none"] ∨ cfg.xen.colors = some ["none", "2-5"]) →
      ("fdt set /chosen xen,xen-bootargs \"" ++ joinSp (bootargsParts cfg.xen) ++ "\"") ∈ ls ∧
      "llc-coloring=on".data ∈ splitSp (joinSp (bootargsParts cfg.xen)).data ∧
      ((∀ t ∈ splitSp cfg.xen.bootargs.data, xlcTok t = false) →
        ∀ t ∈ splitSp (joinSp (bootargsParts cfg.xen)).data, xlcTok t = false)) ∧
    (cfg.xen.colors = some ["0-1", "2-5"] →
      ("fdt set /chosen xen,xen-bootargs \"" ++ joinSp (bootargsParts cfg.xen) ++ "\"") ∈ ls ∧
      "llc-coloring=on".data ∈ splitSp (joinSp (bootargsParts cfg.xen)).data ∧
      "xen-llc-colors=0-1".data ∈ splitSp (joinSp (bootargsParts cfg.xen)).data) := by
  refine ⟨fun hsel => cc_generate hsel hgen, ?_, ?_, ?_⟩
  · intro c hsel i n d hi hd
    obtain ⟨xa, da, loads, cons, hxa, hda, hld, hcn, rfl⟩ := generate_some_iff.mp hgen
    obtain ⟨dls, hdls, hsub⟩ := constructionPhase_mem hcn hi hd
    obtain ⟨mem, mb, ka, dta, ra, _, _, _, _, _, rfl⟩ := constructDomain_some_iff.mp hdls
    exact List.mem_append_left _ (List.mem_append_right _
      (hsub _ (@mem_dl_color fs dir (cfg.xen.colors.getD []) i d mb ka dta ra c hsel)))
  · intro hc
    have hbp : bootargsParts cfg.xen =
        (if cfg.xen.bootargs = "" then [] else [cfg.xen.bootargs]) ++ ["llc-coloring=on"] := by
      rcases hc with hc | hc <;> (rw [bootargsParts, hc]; rfl)
    have htok : splitSp (joinSp (bootargsParts cfg.xen)).data =
        (if cfg.xen.bootargs = "" then [] else splitSp cfg.xen.bootargs.data) ++
          ["llc-coloring=on".data] := by
      rw [hbp]
      exact tokens_joinSp_free_single cfg.xen.bootargs "llc-coloring=on" (noSp_lit (by decide))
    have hne : bootargsParts cfg.xen ≠ [] := by simp [hbp]
    obtain ⟨xa, da, loads, cons, hxa, hda, hld, hcn, rfl⟩ := generate_some_iff.mp hgen
    refine ⟨List.mem_append_left _ (List.mem_append_left _ (List.mem_append_right _
      (mem_prep_bootargs cfg.xen (hex8str da) hne))), ?_, ?_⟩
    · rw [htok]
      exact List.mem_append_right _ (List.mem_singleton.mpr rfl)
    · intro hfree t ht
      rw [htok] at ht
      rcases List.mem_append.mp ht with ht | ht
      · by_cases hb : cfg.xen.bootargs = ""
        · rw [if_pos hb] at ht
          exact absurd ht (List.not_mem_nil t)
        · rw [if_neg hb] at ht
          exact hfree t ht
      · rw [List.mem_singleton] at ht
        subst ht
        decide
  · intro hc
    have hbp : bootargsParts cfg.xen =
        (if cfg.xen.bootargs = "" then [] else [cfg.xen.bootargs]) ++
          ["llc-coloring=on", "xen-llc-colors=0-1"] := by
      rw [bootargsParts, hc]
      rfl
    have htok : splitSp (joinSp (bootargsParts cfg.xen)).data =
        (if cfg.xen.bootargs = "" then [] else splitSp cfg.xen.bootargs.data) ++
          ["llc-coloring=on".data, "xen-llc-colors=0-1".data] := by
      rw [hbp]
      exact tokens_joinSp_free_double cfg.xen.bootargs "llc-coloring=on" "xen-llc-colors=0-1"
        (noSp_lit (by decide)) (noSp_lit (by decide))
    have hne : bootargsParts cfg.xen ≠ [] := by simp [hbp]
    obtain ⟨xa, da, loads, cons, hxa, hda, hld, hcn, rfl⟩ := generate_some_iff.mp hgen
    refine ⟨List.mem_append_left _ (List.mem_append_left _ (List.mem_append_right _
      (mem_prep_bootargs cfg.xen (hex8str da) hne))), ?_, ?_⟩
    · rw [htok]
      exact List.mem_append_right _ (List.mem_cons_self _ _)
    · rw [htok]
      exact List.mem_append_right _ (List.mem_cons_of_mem _ (List.mem_singleton.mpr rfl))

def c2wcfg : Config :=
  { xen := { bootargs := "bootscrub=0", colors := some ["none", "2-5"] },
    domains := [("d1", {})] }

def c2wL : List String :=
  ["fdt addr 0x02000000", "fdt resize 2048", "",
   "fdt set /chosen xen,xen-bootargs \"bootscrub=0 llc-coloring=on\"", "", "",
   "fdt mknode /chosen domU1", "fdt set /chosen/domU1 compatible \"xen,domain\"",
   "fdt set /chosen/domU1 cpus <0x1>", "fdt set /chosen/domU1 \\#address-cells <0x1>",
   "fdt set /chosen/domU1 \\#size-cells <0x1>", "fdt set /chosen/domU1 memory <0x0 0x10000>", "",
   "fdt mknode /chosen/domU1 module@0x03000000", "fdt set /chosen/domU1 llc-colors \"2-5\"",
   "fdt set /chosen/domU1/module@0x03000000 compatible \"multiboot,kernel\" \"multiboot,module\"",
   "fdt set /chosen/domU1/module@0x03000000 reg <0x03000000 0x100000>", "",
   "fdt print /chosen", "booti 0x01000000 - 0x02000000"]

/-- C2 witness: the coloring behaviour at a concrete configuration with
`colors = ["none", "2-5"]` and free bootargs `bootscrub=0`. -/
theorem c2_coloring_witness :
    ("fdt set " ++ ("/chosen/domU" ++ natDecStr 1) ++ " llc-colors \"" ++ "2-5" ++ "\"") ∈ c2wL ∧
    ("fdt set /chosen xen,xen-bootargs \"" ++ joinSp (bootargsParts c2wcfg.xen) ++ "\"") ∈ c2wL ∧
    "llc-coloring=on".data ∈ splitSp (joinSp (bootargsParts c2wcfg.xen)).data := by
  have h := c2_coloring c2wcfg (fun _ => none) "art" c2wL (by decide)
  exact ⟨h.2.1 "2-5" (by decide) 1 "d1" {} (by decide) (by decide),
    (h.2.2.1 (Or.inr rfl)).1, (h.2.2.1 (Or.inr rfl)).2.1⟩

/-- C7: in every successfully generated script, for every selected domain the
device-tree module's `reg` size is rendered as a plain decimal numeral
(`natDecStr`), while the kernel module's and the ramdisk module's `reg` sizes
are rendered as `0x`-prefixed unpadded lowercase hexadecimal (`natHexStr`),
whatever the artifact sizes resolved from the filesystem are. -/
theorem c7_reg_rendering (cfg : Config) (fs : String → Option Nat) (dir : String)
    (ls : List String) (i : Nat) (n : String) (d : DomainCfg)
    (hgen : generate_uboot_script cfg fs dir = some ls)
    (hi : (i, n) ∈ enum1 1 (bootEff cfg)) (hd : lookupDomain cfg.domains n = some d) :
    ∃ ka dta ra,
      parse_address_or_size (d.kernel.addr.getD (.str "0x03000000")) = some ka ∧
      parse_address_or_size (d.dt.addr.getD (.str "0x04000000")) = some dta ∧
      parse_address_or_size (d.ramdisk.addr.getD (.str "0x05000000")) = some ra ∧
      ("fdt set " ++ ("/chosen/domU" ++ natDecStr i) ++ "/module@" ++ hex8str ka ++ " reg <" ++
        hex8str ka ++ " 0x" ++
        natHexStr (match fileOpt d.kernel.file with
                   | some _ => (get_file_size fs dir d.kernel.file).1
                   | none => 0x100000) ++ ">") ∈ ls ∧
      (∀ f, fileOpt d.dt.file = some f →
        ("fdt set " ++ ("/chosen/domU" ++ natDecStr i) ++ "/module@" ++ hex8str dta ++
          " reg <" ++ hex8str dta ++ " " ++
          natDecStr (get_file_size fs dir d.dt.file).1 ++ ">") ∈ ls) ∧
      (∀ f, fileOpt d.ramdisk.file = some f →
        ("fdt set " ++ ("/chosen/domU" ++ natDecStr i) ++ "/module@" ++ hex8str ra ++
          " reg <" ++ hex8str ra ++ " 0x" ++
          natHexStr (get_file_size fs dir d.ramdisk.file).1 ++ ">") ∈ ls) := by
  obtain ⟨xa, da, loads, cons, hxa, hda, hld, hcn, rfl⟩ := generate_some_iff.mp hgen
  obtain ⟨dls, hdls, hsub⟩ := constructionPhase_mem hcn hi hd
  obtain ⟨mem, mb, ka, dta, ra, h1, h2, h3, h4, h5, rfl⟩ := constructDomain_some_iff.mp hdls
  refine ⟨ka, dta, ra, h3, h4, h5, ?_, ?_, ?_⟩
  · exact List.mem_append_left _ (List.mem_append_right _ (hsub _ mem_dl_kreg))
  · intro f hf
    exact List.mem_append_left _ (List.mem_append_right _ (hsub _ (mem_dl_dtreg hf)))
  · intro f hf
    exact List.mem_append_left _ (List.mem_append_right _ (hsub _ (mem_dl_ramreg hf)))

def c7wd : DomainCfg :=
  { kernel := { file := some "k.bin" }, dt := { file := some "d.dtb" },
    ramdisk := { file := some "r.gz" } }

def c7wcfg : Config := { domains := [("d1", c7wd)] }

def c7fs : String → Option Nat := fun s =>
  if s = "art/k.bin" then some 0x600 else if s = "art/d.dtb" then some 384
  else if s = "art/r.gz" then some 0x700 else none

def c7wL : List String :=
  ["fatload mmc 0 0x03000000 k.bin", "fatload mmc 0 0x04000000 d.dtb",
   "fatload mmc 0 0x05000000 r.gz", "fdt addr 0x02000000", "fdt resize 2048", "", "", "",
   "fdt mknode /chosen domU1", "fdt set /chosen/domU1 compatible \"xen,domain\"",
   "fdt set /chosen/domU1 cpus <0x1>", "fdt set /chosen/domU1 \\#address-cells <0x1>",
   "fdt set /chosen/domU1 \\#size-cells <0x1>", "fdt set /chosen/domU1 memory <0x0 0x10000>", "",
   "fdt mknode /chosen/domU1 module@0x03000000",
   "fdt set /chosen/domU1/module@0x03000000 compatible \"multiboot,kernel\" \"multiboot,module\"",
   "fdt set /chosen/domU1/module@0x03000000 reg <0x03000000 0x600>", "",
   "fdt mknode /chosen/domU1 module@0x04000000",
   "fdt set /chosen/domU1/module@0x04000000 compatible \"multiboot,device-tree\" \"multiboot,module\"",
   "fdt set /chosen/domU1/module@0x04000000 reg <0x04000000 384>", "", "",
   "fdt mknode /chosen/domU1 module@0x05000000",
   "fdt set /chosen/domU1/module@0x05000000 compatible \"multiboot,ramdisk\" \"multiboot,module\"",
   "fdt set /chosen/domU1/module@0x05000000 reg <0x05000000 0x700>", "",
   "fdt print /chosen", "booti 0x01000000 - 0x02000000"]

/-- C7 witness: the rendering property at a concrete configuration whose
kernel resolves to 0x600 bytes, device tree to 384 bytes and ramdisk to 0x700
bytes. -/
theorem c7_reg_rendering_witness :
    ∃ ka dta ra,
      parse_address_or_size (c7wd.kernel.addr.getD (.str "0x03000000")) = some ka ∧
      parse_address_or_size (c7wd.dt.addr.getD (.str "0x04000000")) = some dta ∧
      parse_address_or_size (c7wd.ramdisk.addr.getD (.str "0x05000000")) = some ra ∧
      ("fdt set " ++ ("/chosen/domU" ++ natDecStr 1) ++ "/module@" ++ hex8str ka ++ " reg <" ++
        hex8str ka ++ " 0x" ++
        natHexStr (match fileOpt c7wd.kernel.file with
                   | some _ => (get_file_size c7fs "art" c7wd.kernel.file).1
                   | none => 0x100000) ++ ">") ∈ c7wL ∧
      (∀ f, fileOpt c7wd.dt.file = some f →
        ("fdt set " ++ ("/chosen/domU" ++ natDecStr 1) ++ "/module@" ++ hex8str dta ++
          " reg <" ++ hex8str dta ++ " " ++
          natDecStr (get_file_size c7fs "art" c7wd.dt.file).1 ++ ">") ∈ c7wL) ∧
      (∀ f, fileOpt c7wd.ramdisk.file = some f →
        ("fdt set " ++ ("/chosen/domU" ++ natDecStr 1) ++ "/module@" ++ hex8str ra ++
          " reg <" ++ hex8str ra ++ " 0x" ++
          natHexStr (get_file_size c7fs "art" c7wd.ramdisk.file).1 ++ ">") ∈ c7wL) :=
  c7_reg_rendering c7wcfg c7fs "art" c7wL 1 "d1" c7wd (by decide) (by decide) (by decide)

/-- C10: for every selected domain with no configured kernel file name, the
construction phase still creates the kernel module node at the (possibly
default `0x03000000`) kernel address and emits its `compatible` and `reg`
lines, the `reg` size being the literal default `0x100000` independently of
the filesystem oracle; the load phase emits no `fatload` line for the kernel,
only those for a configured device tree or ramdisk. -/
theorem c10_kernel_module_default (cfg : Config) (fs : String → Option Nat) (dir : String)
    (ls : List String) (i : Nat) (n : String) (d : DomainCfg)
    (hgen : generate_uboot_script cfg fs dir = some ls)
    (hi : (i, n) ∈ enum1 1 (bootEff cfg)) (hd : lookupDomain cfg.domains n = some d)
    (hnk : fileOpt d.kernel.file = none) :
    ∃ ka dta ra,
      parse_address_or_size (d.kernel.addr.getD (.str "0x03000000")) = some ka ∧
      parse_address_or_size (d.dt.addr.getD (.str "0x04000000")) = some dta ∧
      parse_address_or_size (d.ramdisk.addr.getD (.str "0x05000000")) = some ra ∧
      ("fdt mknode " ++ ("/chosen/domU" ++ natDecStr i) ++ " module@" ++ hex8str ka) ∈ ls ∧
      ("fdt set " ++ ("/chosen/domU" ++ natDecStr i) ++ "/module@" ++ hex8str ka ++
        " compatible \"multiboot,kernel\" \"multiboot,module\"") ∈ ls ∧
      ("fdt set " ++ ("/chosen/domU" ++ natDecStr i) ++ "/module@" ++ hex8str ka ++ " reg <" ++
        hex8str ka ++ " 0x" ++ natHexStr 0x100000 ++ ">") ∈ ls ∧
      loadDomainLines (cfg.media.type.getD "mmc") (cfg.media.number.getD 0) d = some
        ((match fileOpt d.dt.file with
          | some f =>
            [fatline (cfg.media.type.getD "mmc") (cfg.media.number.getD 0) (hex8str dta) f]
          | none => []) ++
         (match fileOpt d.ramdisk.file with
          | some f =>
            [fatline (cfg.media.type.getD "mmc") (cfg.media.number.getD 0) (hex8str ra) f]
          | none => [])) := by
  obtain ⟨xa, da, loads, cons, hxa, hda, hld, hcn, rfl⟩ := generate_some_iff.mp hgen
  obtain ⟨dls, hdls, hsub⟩ := constructionPhase_mem hcn hi hd
  obtain ⟨mem, mb, ka, dta, ra, h1, h2, h3, h4, h5, rfl⟩ := constructDomain_some_iff.mp hdls
  refine ⟨ka, dta, ra, h3, h4, h5, ?_, ?_, ?_, ?_⟩
  · exact List.mem_append_left _ (List.mem_append_right _ (hsub _ mem_dl_kmknode))
  · exact List.mem_append_left _ (List.mem_append_right _ (hsub _ mem_dl_kcompat))
  · have hk := @mem_dl_kreg fs dir (cfg.xen.colors.getD []) i d mb ka dta ra
    simp only [hnk] at hk
    exact List.mem_append_left _ (List.mem_append_right _ (hsub _ hk))
  · rw [loadDomainLines]
    simp only [h3, h4, h5, hnk, List.nil_append]

def c10wcfg : Config := { domains := [("d1", {})] }

def c10wL : List String :=
  ["fdt addr 0x02000000", "fdt resize 2048", "", "", "", "fdt mknode /chosen domU1",
   "fdt set /chosen/domU1 compatible \"xen,domain\"", "fdt set /chosen/domU1 cpus <0x1>",
   "fdt set /chosen/domU1 \\#address-cells <0x1>", "fdt set /chosen/domU1 \\#size-cells <0x1>",
   "fdt set /chosen/domU1 memory <0x0 0x10000>", "", "fdt mknode /chosen/domU1 module@0x03000000",
   "fdt set /chosen/domU1/module@0x03000000 compatible \"multiboot,kernel\" \"multiboot,module\"",
   "fdt set /chosen/domU1/module@0x03000000 reg <0x03000000 0x100000>", "",
   "fdt print /chosen", "booti 0x01000000 - 0x02000000"]

/-- C10 witness: the default-kernel-module property at a concrete
configuration whose single domain configures no file at all. -/
theorem c10_kernel_module_default_witness :
    ∃ ka dta ra,
      parse_address_or_size (({} : DomainCfg).kernel.addr.getD (.str "0x03000000")) = some ka ∧
      parse_address_or_size (({} : DomainCfg).dt.addr.getD (.str "0x04000000")) = some dta ∧
      parse_address_or_size (({} : DomainCfg).ramdisk.addr.getD (.str "0x05000000")) = some ra ∧
      ("fdt mknode " ++ ("/chosen/domU" ++ natDecStr 1) ++ " module@" ++ hex8str ka) ∈ c10wL ∧
      ("fdt set " ++ ("/chosen/domU" ++ natDecStr 1) ++ "/module@" ++ hex8str ka ++
        " compatible \"multiboot,kernel\" \"multiboot,module\"") ∈ c10wL ∧
      ("fdt set " ++ ("/chosen/domU" ++ natDecStr 1) ++ "/module@" ++ hex8str ka ++ " reg <" ++
        hex8str ka ++ " 0x" ++ natHexStr 0x100000 ++ ">") ∈ c10wL ∧
      loadDomainLines (c10wcfg.media.type.getD "mmc") (c10wcfg.media.number.getD 0) {} = some
        ((match fileOpt ({} : DomainCfg).dt.file with
          | some f =>
            [fatline (c10wcfg.media.type.getD "mmc") (c10wcfg.media.number.getD 0)
              (hex8str dta) f]
          | none => []) ++
         (match fileOpt ({} : DomainCfg).ramdisk.file with
          | some f =>
            [fatline (c10wcfg.media.type.getD "mmc") (c10wcfg.media.number.getD 0)
              (hex8str ra) f]
          | none => [])) :=
  c10_kernel_module_default c10wcfg (fun _ => none) "art" c10wL 1 "d1" {} (by decide) (by decide)
    (by decide) (by decide)
